import Mathlib

/-!
Verification of the tc2csv field extractor and template compiler
(src/streamlit_app.py) against its specification.

The Python code is shallowly embedded: JSON values become the `Json`
inductive, Python dicts become ordered association lists, Python
truthiness becomes `truthy`, and code that can raise (attribute access
on non-mappings) returns `Option` with `none` for a raised exception.
-/

set_option maxRecDepth 8000

/-- A JSON value as parsed by `json.loads`.  Numbers are modelled as
integers (the documents in scope carry no fractional literals); object
fields keep insertion order, mirroring Python dict semantics. -/
inductive Json where
  | null : Json
  | b : Bool → Json
  | n : Int → Json
  | s : String → Json
  | arr : List Json → Json
  | obj : List (String × Json) → Json

namespace Json

mutual
/-- Structural boolean equality on JSON values (Python `==` on the
values in scope). -/
def beqJ : Json → Json → Bool
  | .null, .null => true
  | .b x, .b y => x == y
  | .n x, .n y => x == y
  | .s x, .s y => x == y
  | .arr xs, .arr ys => beqArrJ xs ys
  | .obj xs, .obj ys => beqObjJ xs ys
  | _, _ => false

def beqArrJ : List Json → List Json → Bool
  | [], [] => true
  | x :: xs, y :: ys => beqJ x y && beqArrJ xs ys
  | _, _ => false

def beqObjJ : List (String × Json) → List (String × Json) → Bool
  | [], [] => true
  | (k, v) :: xs, (k2, v2) :: ys => k == k2 && beqJ v v2 && beqObjJ xs ys
  | _, _ => false
end

theorem beq_sound (fuel : Nat) :
    (∀ a b : Json, sizeOf a ≤ fuel → (beqJ a b = true ↔ a = b)) ∧
    (∀ xs ys : List Json, sizeOf xs ≤ fuel → (beqArrJ xs ys = true ↔ xs = ys)) ∧
    (∀ xs ys : List (String × Json), sizeOf xs ≤ fuel →
      (beqObjJ xs ys = true ↔ xs = ys)) := by
  induction fuel with
  | zero =>
      refine ⟨fun a b h => ?_, fun xs ys h => ?_, fun xs ys h => ?_⟩
      · cases a <;> simp at h
      · cases xs <;> simp at h
      · cases xs <;> simp at h
  | succ fuel ih =>
      obtain ⟨ihJ, ihA, ihO⟩ := ih
      refine ⟨fun a b h => ?_, fun xs ys h => ?_, fun xs ys h => ?_⟩
      · cases a with
        | null => cases b <;> simp [beqJ]
        | b x => cases b <;> simp [beqJ]
        | n x => cases b <;> simp [beqJ]
        | s x => cases b <;> simp [beqJ]
        | arr xs =>
            cases b with
            | arr ys =>
                have hs : sizeOf xs ≤ fuel := by simp at h; omega
                simp [beqJ, ihA xs ys hs]
            | null => simp [beqJ]
            | b y => simp [beqJ]
            | n y => simp [beqJ]
            | s y => simp [beqJ]
            | obj ys => simp [beqJ]
        | obj kvs =>
            cases b with
            | obj ys =>
                have hs : sizeOf kvs ≤ fuel := by simp at h; omega
                simp [beqJ, ihO kvs ys hs]
            | null => simp [beqJ]
            | b y => simp [beqJ]
            | n y => simp [beqJ]
            | s y => simp [beqJ]
            | arr ys => simp [beqJ]
      · cases xs with
        | nil => cases ys <;> simp [beqArrJ]
        | cons x xs =>
            cases ys with
            | nil => simp [beqArrJ]
            | cons y ys =>
                have h1 : sizeOf x ≤ fuel := by simp at h; omega
                have h2 : sizeOf xs ≤ fuel := by simp at h; omega
                simp [beqArrJ, ihJ x y h1, ihA xs ys h2]
      · cases xs with
        | nil => cases ys <;> simp [beqObjJ]
        | cons x xs =>
            obtain ⟨k, v⟩ := x
            cases ys with
            | nil => simp [beqObjJ]
            | cons y ys =>
                obtain ⟨k2, v2⟩ := y
                have h1 : sizeOf v ≤ fuel := by simp at h; omega
                have h2 : sizeOf xs ≤ fuel := by simp at h; omega
                simp [beqObjJ, ihJ v v2 h1, ihO xs ys h2, and_assoc]

instance : DecidableEq Json := fun a b =>
  decidable_of_iff (beqJ a b = true) ((beq_sound (sizeOf a)).1 a b le_rfl)

/-- Python truthiness of a JSON value (`bool(x)`). -/
def truthy : Json → Bool
  | .null => false
  | .b x => x
  | .n x => x != 0
  | .s x => x != ""
  | .arr xs => !xs.isEmpty
  | .obj kvs => !kvs.isEmpty

/-- Python `a or b` (value-returning, by truthiness). -/
def pyOr (a b : Json) : Json := if truthy a then a else b

/-- First-match lookup in an ordered association list (dict access). -/
def lookupJ : List (String × Json) → String → Option Json
  | [], _ => none
  | (k, v) :: rest, key => if k = key then some v else lookupJ rest key

/-- `dict.get`-style total access on a known mapping: `None` (here
`.null`) for a missing key. -/
def objGet (kvs : List (String × Json)) (k : String) : Json :=
  (lookupJ kvs k).getD .null

/-- Python `x.get(k)`: `none` models the `AttributeError` raised when
`x` is not a mapping; a missing key yields `some .null`. -/
def pyGet (x : Json) (k : String) : Option Json :=
  match x with
  | .obj kvs => some (objGet kvs k)
  | _ => none

/-- Python `x.get(k, default)` with the same raising behaviour. -/
def pyGetD (x : Json) (k : String) (dflt : Json) : Option Json :=
  match x with
  | .obj kvs => some ((lookupJ kvs k).getD dflt)
  | _ => none

def isArrJ : Json → Bool
  | .arr _ => true
  | _ => false

def isObjJ : Json → Bool
  | .obj _ => true
  | _ => false

end Json

/-- A single quote character, kept out of string literals. -/
def sQuote : String := String.singleton (Char.ofNat 39)

mutual
/-- Python `repr` of a JSON value (simplified quoting: strings are
always single-quoted). -/
def pyRepr : Json → String
  | .null => "None"
  | .b true => "True"
  | .b false => "False"
  | .n x => toString x
  | .s x => sQuote ++ x ++ sQuote
  | .arr xs => "[" ++ pyReprList xs true ++ "]"
  | .obj kvs => "\x7b" ++ pyReprKVs kvs true ++ "\x7d"

def pyReprList : List Json → Bool → String
  | [], _ => ""
  | x :: rest, first =>
      (if first then "" else ", ") ++ pyRepr x ++ pyReprList rest false

def pyReprKVs : List (String × Json) → Bool → String
  | [], _ => ""
  | (k, v) :: rest, first =>
      (if first then "" else ", ") ++ sQuote ++ k ++ sQuote ++ ": " ++ pyRepr v
        ++ pyReprKVs rest false
end

/-- Python `str` of a JSON value. -/
def pyStr : Json → String
  | .s x => x
  | j => pyRepr j

/-- Python str.replace of a space by the empty string: removal of every space character. -/
def pyRemoveSpaces (str : String) : String :=
  ⟨str.data.filter (fun c => c != ' ')⟩

/-- The id-cleaning step of the source: spaces removed, then the
first 19 characters. -/
def cleanId (str : String) : String :=
  ⟨(pyRemoveSpaces str).data.take 19⟩

namespace App

open Json

/-- One extracted field record (`field_data` in the source).  The
key named section in the source is called `sect` here because it is a
Lean keyword.  `display_name` and `unique_id` are `Option`-valued
because the corresponding dict keys are absent on some records
(fallback-extracted fields, and fields before identity resolution);
`repeating_section` merges the explicit `None` of the source with key
absence, which `dict.get` cannot distinguish either. -/
structure Field where
  id : Json
  clean_id : String
  name : Json
  type : Json
  page : Json
  sect : Json
  question : Json
  path : String
  repeating_section : Option Json
  display_name : Option Json
  unique_id : Option Json
deriving DecidableEq

/-- Value stored in the `repeating_sections` registry for one section. -/
structure RepInfo where
  page : Json
  sect : Json
deriving DecidableEq

/-- The three accumulators of `parse_form_fields_separated`:
`main_fields`, `repeating_fields`, and the insertion-ordered
`repeating_sections` dict. -/
structure ParseState where
  main_fields : List Field
  repeating_fields : List Field
  repeating_sections : List (Json × RepInfo)
deriving DecidableEq

def st0 : ParseState := ⟨[], [], []⟩

/-- `section_name in repeating_sections` (dict key membership). -/
def hasRepKey (l : List (Json × RepInfo)) (k : Json) : Bool :=
  l.any (fun p => decide (p.1 = k))

/-- One iteration of the `answers`-as-array loop in
`extract_from_section` (src lines 260-292).  `none` models the
`AttributeError` raised when an array entry is not a mapping. -/
def processAnswerArr (st : ParseState) (seckvs : List (String × Json))
    (page_name page_label : Json) (is_repeating : Bool)
    (section_name : Option Json) (answer : Json) : Option ParseState := do
  let lab ← pyGet answer "label"
  let idv ← pyGet answer "id"
  let uid ← pyGet answer "uniqueId"
  let answer_id := pyOr lab (pyOr idv uid)
  let nm ← pyGet answer "name"
  let tx ← pyGet answer "text"
  let qu ← pyGet answer "question"
  let answer_name := pyOr nm (pyOr tx (pyOr qu answer_id))
  let ty ← pyGet answer "type"
  let qt ← pyGet answer "questionType"
  let answer_type := pyOr ty (pyOr qt (.s "text"))
  if truthy answer_id && truthy answer_name then
    let clean_id := cleanId (pyStr answer_id)
    let fd : Field :=
      { id := answer_id, clean_id := clean_id, name := answer_name,
        type := answer_type, page := pyOr page_name page_label,
        sect := pyOr (objGet seckvs "name") (objGet seckvs "label"),
        question := pyOr qu (pyOr tx answer_name),
        path := "answers." ++ clean_id,
        repeating_section := if is_repeating then section_name else none,
        display_name := none, unique_id := none }
    if is_repeating then
      let fd := { fd with
        display_name := some (.s (pyStr answer_name ++ " (Repeating)")) }
      let st := { st with repeating_fields := st.repeating_fields ++ [fd] }
      match section_name with
      | some sn =>
          if truthy sn && !hasRepKey st.repeating_sections sn then
            pure { st with repeating_sections := st.repeating_sections ++
              [(sn, ⟨page_name, pyOr (objGet seckvs "name") (objGet seckvs "label")⟩)] }
          else pure st
      | none => pure st
    else
      pure { st with main_fields := st.main_fields ++
        [{ fd with display_name := some answer_name }] }
  else
    pure st

/-- One iteration of the `answers`-as-mapping loop in
`extract_from_section` (src lines 296-327).  Entries whose value is not
a mapping are skipped; note the absence of the
`if answer_id and answer_name` guard of the array branch, and the
fallbacks to the mapping key. -/
def processAnswerObjItem (st : ParseState) (seckvs : List (String × Json))
    (page_name page_label : Json) (is_repeating : Bool)
    (section_name : Option Json) (key : String) (answer : Json) : ParseState :=
  match answer with
  | .obj akvs =>
      let answer_id := pyOr (objGet akvs "label") (pyOr (objGet akvs "id") (.s key))
      let answer_name := pyOr (objGet akvs "name") (pyOr (objGet akvs "text")
        (pyOr (objGet akvs "question") (.s key)))
      let answer_type := pyOr (objGet akvs "type")
        (pyOr (objGet akvs "questionType") (.s "text"))
      let clean_id := cleanId (pyStr answer_id)
      let fd : Field :=
        { id := answer_id, clean_id := clean_id, name := answer_name,
          type := answer_type, page := pyOr page_name page_label,
          sect := pyOr (objGet seckvs "name") (objGet seckvs "label"),
          question := pyOr (objGet akvs "question")
            (pyOr (objGet akvs "text") answer_name),
          path := "answers." ++ clean_id,
          repeating_section := if is_repeating then section_name else none,
          display_name := none, unique_id := none }
      if is_repeating then
        let fd := { fd with
          display_name := some (.s (pyStr answer_name ++ " (Repeating)")) }
        let st := { st with repeating_fields := st.repeating_fields ++ [fd] }
        match section_name with
        | some sn =>
            if truthy sn && !hasRepKey st.repeating_sections sn then
              { st with repeating_sections := st.repeating_sections ++
                [(sn, ⟨page_name, pyOr (objGet seckvs "name") (objGet seckvs "label")⟩)] }
            else st
        | none => st
      else
        { st with main_fields := st.main_fields ++
          [{ fd with display_name := some answer_name }] }
  | _ => st

/-- The `answers`-as-array loop. -/
def processAnswersArr (st : ParseState) (seckvs : List (String × Json))
    (page_name page_label : Json) (is_repeating : Bool)
    (section_name : Option Json) : List Json → Option ParseState
  | [] => some st
  | a :: rest => do
      let st' ← processAnswerArr st seckvs page_name page_label is_repeating
        section_name a
      processAnswersArr st' seckvs page_name page_label is_repeating
        section_name rest

/-- The `answers`-as-mapping loop (total: every step is guarded). -/
def processAnswersObj (st : ParseState) (seckvs : List (String × Json))
    (page_name page_label : Json) (is_repeating : Bool)
    (section_name : Option Json) : List (String × Json) → ParseState
  | [] => st
  | (k, a) :: rest =>
      processAnswersObj
        (processAnswerObjItem st seckvs page_name page_label is_repeating
          section_name k a)
        seckvs page_name page_label is_repeating section_name rest

/-- `extract_from_section` (src lines 256-327): the array branch runs
first, then the mapping branch, on the same `answers` value. -/
def extract_from_section (st : ParseState) (sec : Json)
    (page_name page_label : Json) (is_repeating : Bool)
    (section_name : Option Json) : Option ParseState := do
  let ans ← pyGet sec "answers"
  let seckvs := match sec with | .obj kvs => kvs | _ => []
  let st1 ←
    if truthy ans then
      (match ans with
       | .arr xs => processAnswersArr st seckvs page_name page_label
           is_repeating section_name xs
       | _ => pure st)
    else pure st
  if truthy ans then
    (match ans with
     | .obj kvs => pure (processAnswersObj st1 seckvs page_name page_label
         is_repeating section_name kvs)
     | _ => pure st1)
  else pure st1

/-- The inner loop over the sections array of a sub-page inside the
repeating branch. -/
def processSubSections (st : ParseState) (page_name page_label : Json)
    (section_name : Json) : List Json → Option ParseState
  | [] => some st
  | sec :: rest => do
      let st' ← extract_from_section st sec page_name page_label true
        (some section_name)
      processSubSections st' page_name page_label section_name rest

/-- The loop over the pages of the sampled row in the repeating branch: only a
`sections` array is descended into (a mapping is ignored here). -/
def processSubPage (st : ParseState) (page_name page_label : Json)
    (section_name : Json) (sub_page : Json) : Option ParseState := do
  let ss ← pyGet sub_page "sections"
  if truthy ss then
    (match ss with
     | .arr l => processSubSections st page_name page_label section_name l
     | _ => pure st)
  else pure st

def processSubPages (st : ParseState) (page_name page_label : Json)
    (section_name : Json) : List Json → Option ParseState
  | [] => some st
  | p :: rest => do
      let st' ← processSubPage st page_name page_label section_name p
      processSubPages st' page_name page_label section_name rest

/-- Handling of the sampled first row of a repeating section. -/
def processRepeatRow (st : ParseState) (page_name page_label : Json)
    (section_name : Json) (row : Json) : Option ParseState := do
  let ps ← pyGet row "pages"
  if truthy ps then
    (match ps with
     | .arr l => processSubPages st page_name page_label section_name l
     | _ => pure st)
  else pure st

/-- The per-section body shared by both `sections` loops of
`extract_from_page` (src lines 337-350 and 355-367, which are
textually identical): a section whose type equals "Repeat" samples only the
first entry of its `rows` array; any other section is extracted as a
main-form section. -/
def processSection (st : ParseState) (sec : Json)
    (page_name page_label : Json) : Option ParseState := do
  let ty ← pyGet sec "type"
  if ty = .s "Repeat" then
    let nm ← pyGet sec "name"
    let lb ← pyGet sec "label"
    let section_name := pyOr nm (pyOr lb (.s "Repeating Section"))
    let rows ← pyGet sec "rows"
    if truthy rows then
      (match rows with
       | .arr (r :: _) => processRepeatRow st page_name page_label
           section_name r
       | _ => pure st)
    else pure st
  else
    extract_from_section st sec page_name page_label false none

def processSections (st : ParseState) (page_name page_label : Json) :
    List Json → Option ParseState
  | [] => some st
  | sec :: rest => do
      let st' ← processSection st sec page_name page_label
      processSections st' page_name page_label rest

/-- `extract_from_page` (src lines 329-367): resolves the page
display name and label, then walks the `sections` array or mapping. -/
def extract_from_page (st : ParseState) (page : Json) : Option ParseState := do
  let nm ← pyGet page "name"
  let lb ← pyGet page "label"
  let ti ← pyGet page "title"
  let page_name := pyOr nm (pyOr lb ti)
  let page_label := pyOr lb nm
  let secs ← pyGet page "sections"
  let st1 ←
    if truthy secs then
      (match secs with
       | .arr l => processSections st page_name page_label l
       | _ => pure st)
    else pure st
  if truthy secs then
    (match secs with
     | .obj kvs => processSections st1 page_name page_label (kvs.map (·.2))
     | _ => pure st1)
  else pure st1

def extractPagesList (st : ParseState) : List Json → Option ParseState
  | [] => some st
  | p :: rest => do
      let st' ← extract_from_page st p
      extractPagesList st' rest

/-- Root shape 4: each root-level section is extracted under the
synthetic page name "Main Page" with label "main". -/
def extractSectionsRoot (st : ParseState) : List Json → Option ParseState
  | [] => some st
  | sec :: rest => do
      let st' ← extract_from_section st sec (.s "Main Page") (.s "main")
        false none
      extractSectionsRoot st' rest

/-- The field-emission block of `find_form_elements` (src lines
409-425), for a mapping value that carries a truthy `label`, `name` or
`question`. -/
def ffeEmit (key : String) (vkvs : List (String × Json)) (path : String) :
    List Field :=
  let answer_id := pyOr (objGet vkvs "label") (pyOr (objGet vkvs "id") (.s key))
  let answer_name := pyOr (objGet vkvs "name") (pyOr (objGet vkvs "text")
    (pyOr (objGet vkvs "question") (.s key)))
  let answer_type := pyOr (objGet vkvs "type")
    (pyOr (objGet vkvs "questionType") (.s "text"))
  if truthy answer_id && truthy answer_name then
    let clean_id := cleanId (pyStr answer_id)
    [{ id := answer_id, clean_id := clean_id, name := answer_name,
       type := answer_type,
       page := .s (if path = "" then "Unknown" else path),
       sect := .s "Unknown", question := answer_name,
       path := "answers." ++ clean_id ++ "[0]",
       repeating_section := none, display_name := none, unique_id := none }]
  else []

/-- The path extension of the recursive call. -/
def extPath (path key : String) : String :=
  if path = "" then key else path ++ "." ++ key

mutual
/-- The `for key, value in obj.items()` loop of `find_form_elements`
(src lines 405-428). -/
def ffeItems : List (String × Json) → String → List Field
  | [], _ => []
  | (key, value) :: rest, path => ffeItem key value path ++ ffeItems rest path

/-- Handling of one `key, value` item: only truthy mapping values are
examined; a field-looking value is emitted, any other truthy mapping
value is recursed into, and array or scalar values are skipped
entirely because the `elif` that recurses sits inside
`if value and isinstance(value, dict)`.  The recursive call
`find_form_elements(value, ...)` is entered here as `ffeItems vkvs`,
which is what it immediately reduces to on a truthy mapping (see
`find_form_elements_eq_ffeItems`). -/
def ffeItem : String → Json → String → List Field
  | key, .obj vkvs, path =>
      if truthy (.obj vkvs) then
        if truthy (pyOr (objGet vkvs "label") (pyOr (objGet vkvs "name")
            (objGet vkvs "question"))) then
          ffeEmit key vkvs path
        else
          ffeItems vkvs (extPath path key)
      else []
  | _, _, _ => []
end

/-- `find_form_elements` (src lines 403-430), the fallback recursive
search of root shape 5. -/
def find_form_elements (obj : Json) (path : String) : List Field :=
  match obj with
  | .obj kvs => if truthy (.obj kvs) then ffeItems kvs path else []
  | _ => []

theorem find_form_elements_eq_ffeItems (vkvs : List (String × Json))
    (path : String) (h : truthy (.obj vkvs) = true) :
    find_form_elements (.obj vkvs) path = ffeItems vkvs path := by
  simp [find_form_elements, h]

/-- The `elif` chain below the two `pages` branches of
`parse_form_fields_separated` (src lines 381-430): the `dataRecord`
branch, the root-`sections` branch, and the recursive fallback.  The
`.get("pages")` on a non-mapping `dataRecord` value raises
(`none`), as does iterating a truthy non-list non-dict collection. -/
def afterPages (d : Json) : Option ParseState := do
  let dr ← pyGetD d "dataRecord" (.obj [])
  let drPages ← pyGet dr "pages"
  if truthy drPages then
    (match drPages with
     | .arr l => extractPagesList st0 l
     | .obj kvs => extractPagesList st0 (kvs.map (·.2))
     | _ => none)
  else do
    let secs ← pyGet d "sections"
    if truthy secs then
      (match secs with
       | .arr l => extractSectionsRoot st0 l
       | .obj kvs => extractSectionsRoot st0 (kvs.map (·.2))
       | _ => none)
    else
      pure ⟨find_form_elements d "", [], []⟩

/-- `parse_form_fields_separated` (src lines 246-432): the five root
shapes tried in order.  `none` models an uncaught exception. -/
def parse_form_fields_separated (d : Json) : Option ParseState := do
  let pages ← pyGet d "pages"
  match pages with
  | .arr l => if truthy (.arr l) then extractPagesList st0 l else afterPages d
  | .obj kvs =>
      if truthy (.obj kvs) then extractPagesList st0 (kvs.map (·.2))
      else afterPages d
  | _ => afterPages d

/-- `parse_form_fields` (src lines 435-438): the legacy combined list. -/
def parse_form_fields (d : Json) : Option (List Field) :=
  (parse_form_fields_separated d).map
    (fun st => st.main_fields ++ st.repeating_fields)

/-- Root-shape condition 1: `form_def.get("pages")` is truthy and a
list. -/
def cond1 (d : Json) : Option Bool :=
  (pyGet d "pages").map (fun p => truthy p && isArrJ p)

/-- Root-shape condition 2: `form_def.get("pages")` is truthy and a
dict. -/
def cond2 (d : Json) : Option Bool :=
  (pyGet d "pages").map (fun p => truthy p && isObjJ p)

/-- Root-shape condition 3: the chained get of dataRecord then pages
is truthy; evaluating it raises when `dataRecord` holds a non-mapping. -/
def cond3 (d : Json) : Option Bool := do
  let dr ← pyGetD d "dataRecord" (.obj [])
  let dp ← pyGet dr "pages"
  pure (truthy dp)

/-- Root-shape condition 4: `form_def.get("sections")` is truthy. -/
def cond4 (d : Json) : Option Bool :=
  (pyGet d "sections").map truthy

/-- First-match root-shape selection, 0-based; `none` when evaluating
the conditions raises. -/
def rootShape (d : Json) : Option Nat := do
  if ← cond1 d then pure 0
  else if ← cond2 d then pure 1
  else if ← cond3 d then pure 2
  else if ← cond4 d then pure 3
  else pure 4

/-- The body of root-shape branch `i` of
`parse_form_fields_separated`, as a standalone program. -/
def runBranch (i : Nat) (d : Json) : Option ParseState :=
  match i with
  | 0 => do
      let ps ← pyGet d "pages"
      match ps with
      | .arr l => extractPagesList st0 l
      | _ => none
  | 1 => do
      let ps ← pyGet d "pages"
      match ps with
      | .obj kvs => extractPagesList st0 (kvs.map (·.2))
      | _ => none
  | 2 => do
      let dr ← pyGetD d "dataRecord" (.obj [])
      let dp ← pyGet dr "pages"
      (match dp with
       | .arr l => extractPagesList st0 l
       | .obj kvs => extractPagesList st0 (kvs.map (·.2))
       | _ => none)
  | 3 => do
      let secs ← pyGet d "sections"
      (match secs with
       | .arr l => extractSectionsRoot st0 l
       | .obj kvs => extractSectionsRoot st0 (kvs.map (·.2))
       | _ => none)
  | _ => some ⟨find_form_elements d "", [], []⟩

/-- Lookup in the `seen_ids` occurrence-counter dict. -/
def lookupCount (x : Json) : List (Json × Nat) → Option Nat
  | [] => none
  | (k, v) :: rest => if k = x then some v else lookupCount x rest

/-- `seen_ids[base_id] = cnt` on an existing key. -/
def updateCount (x : Json) (cnt : Nat) (seen : List (Json × Nat)) :
    List (Json × Nat) :=
  seen.map (fun p => if p.1 = x then (p.1, cnt) else p)

/-- The `unique_id` assignment pass (src lines 842-849 and 1253-1261):
an occurrence counter keyed by the field id; the first occurrence of
an id keeps it, later ones get `f"{base_id}_{count}"`. -/
def assignLoop (seen : List (Json × Nat)) : List Field → List Field
  | [] => []
  | f :: fs =>
      match lookupCount f.id seen with
      | none =>
          { f with unique_id := some f.id } ::
            assignLoop ((f.id, 0) :: seen) fs
      | some cnt =>
          let uid : Json := .s (pyStr f.id ++ "_" ++ toString (cnt + 1))
          { f with unique_id := some uid } ::
            assignLoop (updateCount f.id (cnt + 1) seen) fs

/-- Identity resolution over the concatenated field list. -/
def assign_unique_ids (fields : List Field) : List Field :=
  assignLoop [] fields

/-- One filter dict as assembled by the UI layer.  Each component is
`Option`-valued: `none` models an absent key, on which `.get` returns
`None` and direct indexing raises `KeyError`. -/
structure FilterObj where
  field : Option Json
  operator : Option Json
  value : Option Json
  logic : Option Json
deriving DecidableEq

/-- The `next(...)` lookup of both compilers: first catalog field
whose unique id (falling back to the raw id) equals the reference. -/
def findField (all_fields : List Field) (fref : Json) : Option Field :=
  all_fields.find? (fun f => decide ((f.unique_id.getD f.id) = fref))

/-- Positional field path inside `generate_filter_condition`
(src lines 463-469): row-relative for repeating sections, indexed full
path for the main form. -/
def fieldPathOf (is_repeat : Bool) (f : Field) : String :=
  if is_repeat then "row." ++ f.clean_id else f.path ++ "[0]"

/-- The fixed operator table shared by both compilers (src lines
474-487 and 699-712), including the fallback of an unrecognized
operator to the equals rendering. -/
def renderOp (field_path : String) (operator value : Json) : String :=
  if operator = .s "equals" then
    field_path ++ " == \"" ++ pyStr value ++ "\""
  else if operator = .s "not_equals" then
    field_path ++ " != \"" ++ pyStr value ++ "\""
  else if operator = .s "contains" then
    field_path ++ "?contains(\"" ++ pyStr value ++ "\")"
  else if operator = .s "not_contains" then
    "!" ++ field_path ++ "?contains(\"" ++ pyStr value ++ "\")"
  else if operator = .s "exists" then
    field_path ++ "?has_content"
  else if operator = .s "not_exists" then
    "!" ++ field_path ++ "?has_content"
  else
    field_path ++ " == \"" ++ pyStr value ++ "\""

/-- Python `''.join`: plain concatenation of the fragments. -/
def concatAll (l : List String) : String := l.foldr (fun a b => a ++ b) ""

/-- The `for i, filter_obj in enumerate(filters)` loop of
`generate_filter_condition` (src lines 455-493), carrying the
enumeration index `i`: blank or unresolvable field references are
skipped; a criterion at `i > 0` with a truthy `logic` has the
connective prepended to its own fragment. -/
def gfcLoop (all_fields : List Field) (is_repeat : Bool) :
    Nat → List FilterObj → List String
  | _, [] => []
  | i, fo :: rest =>
      let fieldRef := fo.field.getD .null
      if !truthy fieldRef then gfcLoop all_fields is_repeat (i + 1) rest
      else
        match findField all_fields fieldRef with
        | none => gfcLoop all_fields is_repeat (i + 1) rest
        | some f =>
            let field_path := fieldPathOf is_repeat f
            let operator := fo.operator.getD (.s "equals")
            let value := fo.value.getD (.s "")
            let condition := renderOp field_path operator value
            let condition :=
              if decide (i > 0) && truthy (fo.logic.getD .null) then
                " " ++ pyStr (fo.logic.getD .null) ++ " " ++ condition
              else condition
            condition :: gfcLoop all_fields is_repeat (i + 1) rest

/-- `generate_filter_condition` (src lines 449-495). -/
def generate_filter_condition (filters : List FilterObj)
    (all_fields : List Field) (is_repeat : Bool) : String :=
  match filters with
  | [] => ""
  | _ =>
      let conditions := gfcLoop all_fields is_repeat 0 filters
      if conditions.isEmpty then "" else concatAll conditions

/-- The condition-building loop inside `generate_freemarker_template`
(src lines 687-717).  Unlike `generate_filter_condition` it indexes
`filter_obj` directly, so a criterion missing the `field`, `operator`
or `value` key raises `KeyError` (`none`); an unresolvable field
reference is still just skipped. -/
def gftLoop (fields : List Field) : Nat → List FilterObj →
    Option (List String)
  | _, [] => some []
  | i, fo :: rest => do
      let fieldRef ← fo.field
      match findField fields fieldRef with
      | none => gftLoop fields (i + 1) rest
      | some f => do
          let operator ← fo.operator
          let value ← fo.value
          let condition := renderOp f.path operator value
          let condition :=
            if decide (i > 0) && truthy (fo.logic.getD .null) then
              " " ++ pyStr (fo.logic.getD .null) ++ " " ++ condition
            else condition
          let restConds ← gftLoop fields (i + 1) rest
          pure (condition :: restConds)

/-- `generate_freemarker_template` (src lines 670-730): header line of
display names, optional conditional wrapper, null-coalescing data row,
and a closing tag emitted whenever any filter has a truthy field
reference (even if no condition was opened). -/
def generate_freemarker_template (fields : List Field)
    (selected_field_ids : List Json) (filters : List FilterObj) :
    Option String := do
  if selected_field_ids.isEmpty then pure ""
  else
    let selected_fields := fields.filter
      (fun f => decide ((f.unique_id.getD f.id) ∈ selected_field_ids))
    let headers := selected_fields.map
      (fun f => "\"" ++ pyStr (f.display_name.getD f.name) ++ "\"")
    let headerPart := String.intercalate "," headers ++ "\n"
    let condPart ←
      if filters.isEmpty then pure ""
      else do
        let conditions ← gftLoop fields 0 filters
        pure (if conditions.isEmpty then ""
          else "<#if " ++ concatAll conditions ++ ">\n")
    let data_values := selected_fields.map
      (fun f => "\"$\x7b(" ++ f.path ++ ")!\"\"\x7d\"")
    let dataPart := String.intercalate "," data_values ++ "\n"
    let closePart :=
      if !filters.isEmpty &&
          filters.any (fun fo => truthy (fo.field.getD .null)) then
        "</#if>\n"
      else ""
    pure (headerPart ++ condPart ++ dataPart ++ closePart)

/-- The cell rendered for one selected main-form field in the dual
main template (src line 515). -/
def dualCellMain (f : Field) : String :=
  ",=\"$\x7b(" ++ f.path ++ "[0])!\"\"\x7d\""

/-- The cell rendered for one selected repeating field inside an
iteration block (src line 545). -/
def dualCellRepeat (f : Field) : String :=
  ",=\"$\x7b(row." ++ f.clean_id ++ ")!\"\"\x7d\""

/-- The iteration-open line of one repeating section (src line 533):
the section name with spaces removed. -/
def listOpen (section_name : String) : String :=
  "<#list answers." ++ pyRemoveSpaces section_name ++ " as row>\n"

/-- The body emitted for one registry entry of the repeating template
(src lines 531-552): iteration-open, optional per-row conditional, a
data line with the fixed three cells plus one cell per selected
repeating field belonging to this section, and iteration-close. -/
def repeatSectionBlock (repeat_condition : String)
    (selected_repeat : List Field) (section_name : String) : String :=
  listOpen section_name
    ++ (if repeat_condition ≠ "" then "<#if " ++ repeat_condition ++ ">\n"
        else "")
    ++ "\"$\x7bdataRecord.submissionId\x7d\",\"" ++ section_name
    ++ "\",$\x7brow?index + 1\x7d"
    ++ concatAll ((selected_repeat.filter (fun f =>
          decide (f.repeating_section = some (.s section_name)))).map
        dualCellRepeat)
    ++ "\n"
    ++ (if repeat_condition ≠ "" then "</#if>\n" else "")
    ++ "</#list>\n"

/-- The `for section_name, section_info in repeating_sections.items()`
loop (the per-iteration `repeat_condition` recomputation of the source
is pure and identical every time, so it is hoisted to a parameter). -/
def repeatBlocks (repeat_condition : String) (selected_repeat : List Field) :
    List (String × RepInfo) → String
  | [] => ""
  | (name, _) :: rest =>
      repeatSectionBlock repeat_condition selected_repeat name
        ++ repeatBlocks repeat_condition selected_repeat rest

/-- `generate_dual_templates` (src lines 440-554).  The registry is
taken with `String` keys, matching the `Dict[str, str]` annotation of
the source (a non-string key would raise on `.replace`). -/
def generate_dual_templates (main_fields repeating_fields : List Field)
    (selected_main_ids selected_repeat_ids : List Json)
    (repeating_sections : List (String × RepInfo))
    (main_filters repeat_filters : List FilterObj) : String × String :=
  let selected_main := main_fields.filter
    (fun f => decide (f.id ∈ selected_main_ids))
  let main_header := "\uFEFF" ++ "\"SubmissionID\",\"FormName\",\"SubmissionDate\""
    ++ concatAll (selected_main.map (fun f => ",\"" ++ pyStr f.name ++ "\""))
    ++ "\n"
  let main_condition := generate_filter_condition main_filters main_fields false
  let main_data := "\"$\x7bdataRecord.submissionId\x7d\",\"$\x7bdataRecord.form.name\x7d\",\"$\x7bdataRecord.serverReceiveDate\x7d\""
    ++ concatAll (selected_main.map dualCellMain) ++ "\n"
  let main_template := main_header
    ++ (if main_condition ≠ "" then "<#if " ++ main_condition ++ ">\n" else "")
    ++ main_data
    ++ (if main_condition ≠ "" then "</#if>\n" else "")
  let selected_repeat := repeating_fields.filter
    (fun f => decide (f.id ∈ selected_repeat_ids))
  let repeat_header := "\uFEFF" ++ "\"SubmissionID\",\"SectionName\",\"RowNumber\""
    ++ concatAll (selected_repeat.map (fun f => ",\"" ++ pyStr f.name ++ "\""))
    ++ "\n"
  let repeat_condition := generate_filter_condition repeat_filters
    repeating_fields true
  let repeat_template := repeat_header
    ++ repeatBlocks repeat_condition selected_repeat repeating_sections
  (main_template, repeat_template)

end App

namespace App
open Json

/-- Claim C3: for a section typed with the repeating marker, extraction
samples structure only from the first element of `rows` (the result is
unchanged by replacing all later rows), and a repeating section with
absent or empty `rows` contributes zero fields. -/
theorem claim_C3 :
    (∀ (st : ParseState) (pn pl : Json) (sec1 sec2 : List (String × Json))
      (r : Json) (rest1 rest2 : List Json),
      lookupJ sec1 "type" = some (.s "Repeat") →
      lookupJ sec1 "rows" = some (.arr (r :: rest1)) →
      lookupJ sec2 "rows" = some (.arr (r :: rest2)) →
      (∀ k, k ≠ "rows" → lookupJ sec1 k = lookupJ sec2 k) →
      processSection st (.obj sec1) pn pl = processSection st (.obj sec2) pn pl) ∧
    (∀ (st : ParseState) (pn pl : Json) (sec : List (String × Json)),
      lookupJ sec "type" = some (.s "Repeat") →
      (lookupJ sec "rows" = none ∨ lookupJ sec "rows" = some (.arr [])) →
      processSection st (.obj sec) pn pl = some st) := by
  constructor
  · intro st pn pl sec1 sec2 r rest1 rest2 hty hr1 hr2 hagree
    have hty2 : lookupJ sec2 "type" = some (.s "Repeat") := by
      rw [← hagree "type" (by decide)]; exact hty
    have hnm : lookupJ sec1 "name" = lookupJ sec2 "name" :=
      hagree "name" (by decide)
    have hlb : lookupJ sec1 "label" = lookupJ sec2 "label" :=
      hagree "label" (by decide)
    simp only [processSection, pyGet, objGet, hty, hty2, hr1, hr2, hnm, hlb]
    simp [truthy]
  · intro st pn pl sec hty hrows
    rcases hrows with h | h <;>
      simp [processSection, pyGet, objGet, hty, h, truthy]

/-- Witness for C3 at a concrete repeating section: a second row with a
different answer does not change the result, and a row-less repeating
section leaves the state untouched. -/
theorem claim_C3_witness :
    processSection st0
      (.obj [("type", .s "Repeat"), ("name", .s "Items"),
        ("rows", .arr [.obj [], .obj [("pages", .arr [.obj []])]])])
      (.s "P") (.s "P")
    = processSection st0
      (.obj [("type", .s "Repeat"), ("name", .s "Items"),
        ("rows", .arr [.obj []])])
      (.s "P") (.s "P") ∧
    processSection st0 (.obj [("type", .s "Repeat")]) (.s "P") (.s "P")
      = some st0 := by
  constructor
  · exact claim_C3.1 st0 (.s "P") (.s "P") _ _ (.obj [])
      [.obj [("pages", .arr [.obj []])]] []
      (by decide) (by decide) (by decide)
      (by intro k hk
          have hne : ¬ ("rows" = k) := fun h => hk h.symm
          simp [lookupJ, hne])
  · exact claim_C3.2 st0 (.s "P") (.s "P") _ (by decide) (by decide)

end App

namespace App
open Json

/-- The fragment contributed to the compiled filter expression by the
criterion at index `i`, in isolation: empty for a blank or
unresolvable field reference. -/
def gfcFragment (all_fields : List Field) (is_repeat : Bool) (i : Nat)
    (fo : FilterObj) : String :=
  let fieldRef := fo.field.getD .null
  if !truthy fieldRef then ""
  else
    match findField all_fields fieldRef with
    | none => ""
    | some f =>
        let condition := renderOp (fieldPathOf is_repeat f)
          (fo.operator.getD (.s "equals")) (fo.value.getD (.s ""))
        if decide (i > 0) && truthy (fo.logic.getD .null) then
          " " ++ pyStr (fo.logic.getD .null) ++ " " ++ condition
        else condition

/-- A criterion is usable when its field reference is truthy and
resolves against the catalog. -/
def gfcUsable (all_fields : List Field) (fo : FilterObj) : Bool :=
  truthy (fo.field.getD .null) &&
    (findField all_fields (fo.field.getD .null)).isSome

theorem concatAll_nil : concatAll [] = "" := rfl

theorem concatAll_cons (a : String) (l : List String) :
    concatAll (a :: l) = a ++ concatAll l := rfl

theorem gfcLoop_concat (all_fields : List Field) (is_repeat : Bool) :
    ∀ (l : List FilterObj) (i : Nat),
      concatAll (gfcLoop all_fields is_repeat i l) =
        concatAll ((l.enumFrom i).map
          (fun p => gfcFragment all_fields is_repeat p.1 p.2)) := by
  intro l
  induction l with
  | nil => intro i; simp [gfcLoop]
  | cons fo rest ih =>
      intro i
      rw [List.enumFrom_cons, List.map_cons, concatAll_cons]
      by_cases hb : truthy (fo.field.getD .null)
      · cases hf : findField all_fields (fo.field.getD .null) with
        | none =>
            have h1 : gfcLoop all_fields is_repeat i (fo :: rest) =
                gfcLoop all_fields is_repeat (i + 1) rest := by
              simp [gfcLoop, hb, hf]
            have h2 : gfcFragment all_fields is_repeat i fo = "" := by
              simp [gfcFragment, hb, hf]
            rw [h1, h2, ih (i + 1)]
            rfl
        | some f =>
            have h1 : gfcLoop all_fields is_repeat i (fo :: rest) =
                gfcFragment all_fields is_repeat i fo ::
                  gfcLoop all_fields is_repeat (i + 1) rest := by
              simp [gfcLoop, gfcFragment, hb, hf]
            rw [h1, concatAll_cons, ih (i + 1)]
      · have h1 : gfcLoop all_fields is_repeat i (fo :: rest) =
            gfcLoop all_fields is_repeat (i + 1) rest := by
          simp [gfcLoop, hb]
        have h2 : gfcFragment all_fields is_repeat i fo = "" := by
          simp [gfcFragment, hb]
        rw [h1, h2, ih (i + 1)]
        rfl

theorem gfc_eq_concat (filters : List FilterObj) (all_fields : List Field)
    (is_repeat : Bool) :
    generate_filter_condition filters all_fields is_repeat =
      concatAll (gfcLoop all_fields is_repeat 0 filters) := by
  cases filters with
  | nil => simp [generate_filter_condition, gfcLoop, concatAll]
  | cons fo rest =>
      simp only [generate_filter_condition]
      cases h : gfcLoop all_fields is_repeat 0 (fo :: rest) with
      | nil => simp [concatAll]
      | cons a l => simp [h]

theorem concatAll_all_empty : ∀ (l : List String),
    (∀ x ∈ l, x = "") → concatAll l = "" := by
  intro l
  induction l with
  | nil => intro _; rfl
  | cons a l ih =>
      intro h
      have ha := h a (by simp)
      simp [concatAll, ha]
      have := ih (fun x hx => h x (by simp [hx]))
      simpa [concatAll] using this

/-- Claim C5: the compiled filter expression is the concatenation of
per-criterion fragments (an unusable criterion contributes the empty
fragment without affecting any other), and it is the empty string
whenever the list is empty or no criterion is usable; the compiler is
a total function and never raises. -/
theorem claim_C5 (filters : List FilterObj) (all_fields : List Field)
    (is_repeat : Bool) :
    generate_filter_condition filters all_fields is_repeat =
      concatAll (filters.enum.map
        (fun p => gfcFragment all_fields is_repeat p.1 p.2)) ∧
    ((∀ fo ∈ filters, gfcUsable all_fields fo = false) →
      generate_filter_condition filters all_fields is_repeat = "") := by
  have hdec : generate_filter_condition filters all_fields is_repeat =
      concatAll (filters.enum.map
        (fun p => gfcFragment all_fields is_repeat p.1 p.2)) := by
    rw [gfc_eq_concat]
    simpa [List.enum] using gfcLoop_concat all_fields is_repeat filters 0
  refine ⟨hdec, fun hall => ?_⟩
  rw [hdec]
  apply concatAll_all_empty
  intro x hx
  simp only [List.mem_map] at hx
  obtain ⟨⟨i, fo⟩, hmem, hx⟩ := hx
  obtain ⟨hlt, hEq⟩ := List.mem_enum hmem
  have hfo : fo ∈ filters := hEq ▸ List.getElem_mem hlt
  have hu := hall fo hfo
  simp only [gfcUsable, Bool.and_eq_false_iff] at hu
  rw [← hx]
  rcases hu with hu | hu
  · simp [gfcFragment, hu]
  · have hf : findField all_fields (fo.field.getD .null) = none :=
      Option.not_isSome_iff_eq_none.mp (by simp [hu])
    simp [gfcFragment, hf]

/-- Witness for C5: a single criterion with an unresolvable field
reference against an empty catalog compiles to the empty string. -/
theorem claim_C5_witness :
    generate_filter_condition [⟨some (.s "zz"), none, none, none⟩] [] false
      = "" :=
  (claim_C5 [⟨some (.s "zz"), none, none, none⟩] [] false).2 (by decide)

/-- Claim C6: a sole `exists` criterion on a resolvable field compiles
to the has-content rendering of the positional field path, independent
of the value and connective of the criterion, and a sole `not_exists`
criterion to its negation with no leading connective; the same holds
for the condition fragments built inside `generate_freemarker_template`
(there on the plain field path). -/
theorem claim_C6 (all_fields : List Field) (fref : Json)
    (v lg : Option Json) (vv : Json) (is_repeat : Bool) (f : Field)
    (htr : truthy fref = true)
    (hfind : findField all_fields fref = some f) :
    generate_filter_condition [⟨some fref, some (.s "exists"), v, lg⟩]
        all_fields is_repeat
      = fieldPathOf is_repeat f ++ "?has_content" ∧
    generate_filter_condition [⟨some fref, some (.s "not_exists"), v, lg⟩]
        all_fields is_repeat
      = "!" ++ fieldPathOf is_repeat f ++ "?has_content" ∧
    gftLoop all_fields 0 [⟨some fref, some (.s "exists"), some vv, lg⟩]
      = some [f.path ++ "?has_content"] ∧
    gftLoop all_fields 0 [⟨some fref, some (.s "not_exists"), some vv, lg⟩]
      = some ["!" ++ f.path ++ "?has_content"] := by
  refine ⟨?_, ?_, ?_, ?_⟩
  · simp [generate_filter_condition, gfcLoop, htr, hfind, renderOp,
      concatAll]
  · simp [generate_filter_condition, gfcLoop, htr, hfind, renderOp,
      concatAll]
  · simp [gftLoop, hfind, renderOp]
  · simp [gftLoop, hfind, renderOp]

/-- The concrete catalog field used by the C6 witness. -/
def c6fld : Field :=
  { id := .s "Q6", clean_id := "Q6", name := .s "N",
    type := .s "text", page := .null, sect := .null,
    question := .null, path := "answers.Q6",
    repeating_section := none, display_name := none,
    unique_id := none }

/-- Witness for C6 at a concrete catalog: the sole exists criterion
compiles to the has-content rendering of the positional path, with the
value text nowhere in play. -/
theorem claim_C6_witness :
    generate_filter_condition
        [⟨some (.s "Q6"), some (.s "exists"), some (.s "secret"),
          some (.s "or")⟩]
        [c6fld] false
      = fieldPathOf false c6fld ++ "?has_content" :=
  (claim_C6 [c6fld] (.s "Q6") (some (.s "secret")) (some (.s "or")) (.s "x")
    false c6fld (by decide) (by decide)).1

/-- The concrete catalog field used by the C10 theorem. -/
def c10fld : Field :=
  { id := .s "Q1", clean_id := "Q1", name := .s "Name",
    type := .s "text", page := .s "P1", sect := .null,
    question := .s "Name", path := "answers.Q1",
    repeating_section := none, display_name := some (.s "Name"),
    unique_id := none }

/-- Claim C10: in both filter compilers the connective prefix is keyed
to the index of the criterion in the input list, not to its position
among the surviving criteria: with an unresolvable first criterion and
a resolvable second one carrying the connective `and`, the compiled
expression begins with the leading connective text. -/
theorem claim_C10 :
    generate_filter_condition
        [⟨some (.s "nope"), some (.s "equals"), some (.s "v"), none⟩,
         ⟨some (.s "Q1"), some (.s "exists"), some (.s ""),
          some (.s "and")⟩]
        [c10fld] false
      = " and answers.Q1[0]?has_content" ∧
    generate_freemarker_template [c10fld] [.s "Q1"]
        [⟨some (.s "nope"), some (.s "equals"), some (.s "v"), none⟩,
         ⟨some (.s "Q1"), some (.s "exists"), some (.s ""),
          some (.s "and")⟩]
      = some ("\"Name\"\n<#if  and answers.Q1?has_content>\n\"$\x7b(answers.Q1)!\"\"\x7d\"\n</#if>\n") := by
  constructor
  · decide
  · decide

theorem repeatBlocks_eq_concat (cond : String) (selr : List Field) :
    ∀ (registry : List (String × RepInfo)),
      repeatBlocks cond selr registry =
        concatAll (registry.map (fun p => repeatSectionBlock cond selr p.1)) := by
  intro registry
  induction registry with
  | nil => rfl
  | cons p rest ih =>
      obtain ⟨name, info⟩ := p
      simp [repeatBlocks, concatAll_cons, ih]

/-- Claim C7: the repeating document is the fixed header followed by
exactly one iteration block per registry entry, in registry order
(also when no repeating field is selected), and the data line of each
block carries one cell exactly for each selected repeating field whose
`repeating_section` equals the current section name. -/
theorem claim_C7 (main_fields repeating_fields : List Field)
    (selected_main_ids selected_repeat_ids : List Json)
    (registry : List (String × RepInfo))
    (main_filters repeat_filters : List FilterObj) :
    (generate_dual_templates main_fields repeating_fields
        selected_main_ids selected_repeat_ids registry
        main_filters repeat_filters).2
      = "\uFEFF" ++ "\"SubmissionID\",\"SectionName\",\"RowNumber\""
        ++ concatAll ((repeating_fields.filter
            (fun f => decide (f.id ∈ selected_repeat_ids))).map
          (fun f => ",\"" ++ pyStr f.name ++ "\"")) ++ "\n"
        ++ concatAll (registry.map (fun p => repeatSectionBlock
            (generate_filter_condition repeat_filters repeating_fields true)
            (repeating_fields.filter
              (fun f => decide (f.id ∈ selected_repeat_ids))) p.1)) ∧
    (registry.map (fun p => repeatSectionBlock
        (generate_filter_condition repeat_filters repeating_fields true)
        (repeating_fields.filter
          (fun f => decide (f.id ∈ selected_repeat_ids))) p.1)).length
      = registry.length ∧
    (∀ (cond : String) (selr : List Field) (name : String),
      repeatSectionBlock cond selr name
        = listOpen name
          ++ (if cond ≠ "" then "<#if " ++ cond ++ ">\n" else "")
          ++ "\"$\x7bdataRecord.submissionId\x7d\",\"" ++ name
          ++ "\",$\x7brow?index + 1\x7d"
          ++ concatAll ((selr.filter (fun f =>
              decide (f.repeating_section = some (.s name)))).map
            dualCellRepeat)
          ++ "\n" ++ (if cond ≠ "" then "</#if>\n" else "")
          ++ "</#list>\n") := by
  refine ⟨?_, by simp, fun cond selr name => rfl⟩
  simp only [generate_dual_templates, repeatBlocks_eq_concat]

/-- The expected sequence of assigned unique ids for the occurrences
of one raw id: the raw id itself, then positional suffixes 1, 2, .. -/
def expectedUniqueIds (x : Json) : Nat → List (Option Json)
  | 0 => []
  | k + 1 => some x :: (List.range k).map
      (fun i => some (.s (pyStr x ++ "_" ++ toString (i + 1))))

/-- Suffixed unique ids starting at a given counter value. -/
def suffixIds (x : Json) (start k : Nat) : List (Option Json) :=
  (List.range k).map (fun i => some (.s (pyStr x ++ "_" ++ toString (start + i))))

theorem suffixIds_succ (x : Json) (start k : Nat) :
    suffixIds x start (k + 1)
      = some (.s (pyStr x ++ "_" ++ toString start)) :: suffixIds x (start + 1) k := by
  simp only [suffixIds, List.range_succ_eq_map, List.map_cons, List.map_map]
  congr 1
  apply List.map_congr_left
  intro i _
  simp only [Function.comp]
  have h : start + (i + 1) = start + 1 + i := by omega
  rw [h]

theorem expectedUniqueIds_eq (x : Json) (k : Nat) :
    expectedUniqueIds x (k + 1) = some x :: suffixIds x 1 k := by
  simp only [expectedUniqueIds, suffixIds]
  congr 1
  apply List.map_congr_left
  intro i _
  have h : i + 1 = 1 + i := by omega
  rw [h]

theorem lookupCount_cons (x k : Json) (v : Nat) (l : List (Json × Nat)) :
    lookupCount x ((k, v) :: l) = if k = x then some v else lookupCount x l :=
  rfl

theorem updateCount_cons (x : Json) (cnt : Nat) (k : Json) (w : Nat)
    (l : List (Json × Nat)) :
    updateCount x cnt ((k, w) :: l)
      = (if k = x then (k, cnt) else (k, w)) :: updateCount x cnt l := rfl

theorem lookupCount_update_self (x : Json) (v : Nat) :
    ∀ (l : List (Json × Nat)),
      lookupCount x (updateCount x v l)
        = (lookupCount x l).map (fun _ => v) := by
  intro l
  induction l with
  | nil => simp [lookupCount, updateCount]
  | cons p rest ih =>
      obtain ⟨k, w⟩ := p
      rw [updateCount_cons, lookupCount_cons]
      by_cases hk : k = x
      · rw [if_pos hk, if_pos hk, lookupCount_cons, if_pos hk]
        rfl
      · rw [if_neg hk, if_neg hk, lookupCount_cons, if_neg hk]
        exact ih

theorem lookupCount_update_ne (x y : Json) (v : Nat) (hxy : x ≠ y) :
    ∀ (l : List (Json × Nat)),
      lookupCount x (updateCount y v l) = lookupCount x l := by
  intro l
  induction l with
  | nil => simp [lookupCount, updateCount]
  | cons p rest ih =>
      obtain ⟨k, w⟩ := p
      rw [updateCount_cons, lookupCount_cons]
      by_cases hk : k = y
      · have hne : k ≠ x := by
          intro h
          exact hxy (h ▸ hk ▸ rfl)
        rw [if_pos hk, lookupCount_cons, if_neg hne, if_neg hne]
        exact ih
      · rw [if_neg hk, lookupCount_cons]
        by_cases hkx : k = x
        · rw [if_pos hkx, if_pos hkx]
        · rw [if_neg hkx, if_neg hkx]
          exact ih

theorem assignLoop_filter_spec (x : Json) :
    ∀ (l : List Field) (seen : List (Json × Nat)),
      ((assignLoop seen l).filter (fun f => decide (f.id = x))).map
          Field.unique_id
        = match lookupCount x seen with
          | none => expectedUniqueIds x
              (l.countP (fun f => decide (f.id = x)))
          | some cnt => suffixIds x (cnt + 1)
              (l.countP (fun f => decide (f.id = x))) := by
  intro l
  induction l with
  | nil =>
      intro seen
      cases lookupCount x seen <;>
        simp [assignLoop, expectedUniqueIds, suffixIds]
  | cons f fs ih =>
      intro seen
      by_cases hfx : f.id = x
      · subst hfx
        cases hlk : lookupCount f.id seen with
        | none =>
            have hlk2 : lookupCount f.id ((f.id, 0) :: seen) = some 0 := by
              rw [lookupCount_cons, if_pos rfl]
            have hrec := ih ((f.id, 0) :: seen)
            rw [hlk2] at hrec
            simp only [assignLoop, hlk]
            simp [List.filter_cons, List.countP_cons, hrec,
              expectedUniqueIds_eq]
        | some cnt =>
            have hlk2 : lookupCount f.id (updateCount f.id (cnt + 1) seen)
                = some (cnt + 1) := by
              rw [lookupCount_update_self, hlk]
              rfl
            have hrec := ih (updateCount f.id (cnt + 1) seen)
            rw [hlk2] at hrec
            simp only [assignLoop, hlk]
            simp [List.filter_cons, List.countP_cons, hrec, suffixIds_succ]
      · have hdx : (decide (f.id = x)) = false := decide_eq_false hfx
        cases hlk : lookupCount f.id seen with
        | none =>
            have hlkx : lookupCount x ((f.id, 0) :: seen)
                = lookupCount x seen := by
              rw [lookupCount_cons, if_neg hfx]
            have hrec := ih ((f.id, 0) :: seen)
            rw [hlkx] at hrec
            simp only [assignLoop, hlk]
            simp [List.filter_cons, List.countP_cons, hdx, hrec]
        | some cnt =>
            have hlkx : lookupCount x (updateCount f.id (cnt + 1) seen)
                = lookupCount x seen :=
              lookupCount_update_ne x f.id (cnt + 1) (fun h => hfx h.symm) seen
            have hrec := ih (updateCount f.id (cnt + 1) seen)
            rw [hlkx] at hrec
            simp only [assignLoop, hlk]
            simp [List.filter_cons, List.countP_cons, hdx, hrec]

theorem assignLoop_idem :
    ∀ (l : List Field) (seen : List (Json × Nat)),
      assignLoop seen (assignLoop seen l) = assignLoop seen l := by
  intro l
  induction l with
  | nil => intro seen; rfl
  | cons f fs ih =>
      intro seen
      cases hlk : lookupCount f.id seen with
      | none =>
          simp only [assignLoop, hlk]
          exact congrArg _ (ih ((f.id, 0) :: seen))
      | some cnt =>
          simp only [assignLoop, hlk]
          exact congrArg _ (ih (updateCount f.id (cnt + 1) seen))

theorem assignLoop_erase :
    ∀ (l : List Field) (seen : List (Json × Nat)),
      (assignLoop seen l).map (fun f => { f with unique_id := none })
        = l.map (fun f => { f with unique_id := none }) := by
  intro l
  induction l with
  | nil => intro seen; rfl
  | cons f fs ih =>
      intro seen
      cases hlk : lookupCount f.id seen with
      | none => simp [assignLoop, hlk, ih]
      | some cnt => simp [assignLoop, hlk, ih]

/-- Claim C4: identity resolution assigns, to the `k` occurrences of a
raw id in encounter order, the raw id itself followed by the suffixed
forms for counters 1 to `k-1`; only `unique_id` is written (the field
list is otherwise unchanged), and re-running the pass over its own
output reproduces it identically. -/
theorem claim_C4 (l : List Field) (x : Json) :
    ((assign_unique_ids l).filter (fun f => decide (f.id = x))).map
        Field.unique_id
      = expectedUniqueIds x (l.countP (fun f => decide (f.id = x))) ∧
    (assign_unique_ids l).map (fun f => { f with unique_id := none })
      = l.map (fun f => { f with unique_id := none }) ∧
    assign_unique_ids (assign_unique_ids l) = assign_unique_ids l := by
  refine ⟨?_, assignLoop_erase l [], assignLoop_idem l []⟩
  have h := assignLoop_filter_spec x l []
  simpa [assign_unique_ids, lookupCount] using h

/-- The clean-id invariant of one field record. -/
def GoodF (f : Field) : Prop := f.clean_id = cleanId (pyStr f.id)

/-- Between two parse states, every field of the second is either an
old field of the first or satisfies the clean-id invariant. -/
def StepOK (st st' : ParseState) : Prop :=
  (∀ f ∈ st'.main_fields, f ∈ st.main_fields ∨ GoodF f) ∧
  (∀ f ∈ st'.repeating_fields, f ∈ st.repeating_fields ∨ GoodF f)

theorem stepOK_refl (st : ParseState) : StepOK st st :=
  ⟨fun f hf => Or.inl hf, fun f hf => Or.inl hf⟩

theorem stepOK_trans {a b c : ParseState} (h1 : StepOK a b)
    (h2 : StepOK b c) : StepOK a c := by
  constructor
  · intro f hf
    rcases h2.1 f hf with hb | hg
    · exact h1.1 f hb
    · exact Or.inr hg
  · intro f hf
    rcases h2.2 f hf with hb | hg
    · exact h1.2 f hb
    · exact Or.inr hg

/-- A result of `some st'` only extends the state with invariant-
preserving fields. -/
def OStepOK (st : ParseState) (r : Option ParseState) : Prop :=
  ∀ st', r = some st' → StepOK st st'

theorem stepOK_append_main (st : ParseState) (fd : Field) (h : GoodF fd) :
    StepOK st { st with main_fields := st.main_fields ++ [fd] } := by
  refine ⟨fun f hf => ?_, fun f hf => Or.inl hf⟩
  simp only [List.mem_append, List.mem_singleton] at hf
  rcases hf with hf | hf
  · exact Or.inl hf
  · subst hf; exact Or.inr h

theorem stepOK_append_rep (st : ParseState) (fd : Field) (h : GoodF fd) :
    StepOK st { st with repeating_fields := st.repeating_fields ++ [fd] } := by
  refine ⟨fun f hf => Or.inl hf, fun f hf => ?_⟩
  simp only [List.mem_append, List.mem_singleton] at hf
  rcases hf with hf | hf
  · exact Or.inl hf
  · subst hf; exact Or.inr h

theorem stepOK_append_rep_reg (st : ParseState) (fd : Field)
    (e : Json × RepInfo) (h : GoodF fd) :
    StepOK st { st with
      repeating_fields := st.repeating_fields ++ [fd],
      repeating_sections := st.repeating_sections ++ [e] } := by
  refine ⟨fun f hf => Or.inl hf, fun f hf => ?_⟩
  simp only [List.mem_append, List.mem_singleton] at hf
  rcases hf with hf | hf
  · exact Or.inl hf
  · subst hf; exact Or.inr h

theorem processAnswerArr_ok (st : ParseState) (seckvs : List (String × Json))
    (pn pl : Json) (ir : Bool) (sn : Option Json) (answer : Json) :
    OStepOK st (processAnswerArr st seckvs pn pl ir sn answer) := by
  intro st' h
  cases answer with
  | obj akvs =>
      simp only [processAnswerArr, pyGet, Option.bind_eq_bind,
        Option.some_bind] at h
      repeat' split at h
      all_goals
        simp only [Option.pure_def, Option.some.injEq] at h
      all_goals subst h
      all_goals
        first
        | exact stepOK_refl _
        | exact stepOK_append_rep_reg _ _ _ rfl
        | exact stepOK_append_rep _ _ rfl
        | exact stepOK_append_main _ _ rfl
  | null => simp [processAnswerArr, pyGet] at h
  | b x => simp [processAnswerArr, pyGet] at h
  | n x => simp [processAnswerArr, pyGet] at h
  | s x => simp [processAnswerArr, pyGet] at h
  | arr xs => simp [processAnswerArr, pyGet] at h

theorem processAnswerObjItem_ok (st : ParseState)
    (seckvs : List (String × Json)) (pn pl : Json) (ir : Bool)
    (sn : Option Json) (key : String) (answer : Json) :
    StepOK st (processAnswerObjItem st seckvs pn pl ir sn key answer) := by
  cases answer with
  | obj akvs =>
      simp only [processAnswerObjItem]
      repeat' split
      all_goals
        first
        | exact stepOK_refl _
        | exact stepOK_append_rep_reg _ _ _ rfl
        | exact stepOK_append_rep _ _ rfl
        | exact stepOK_append_main _ _ rfl
  | null => exact stepOK_refl _
  | b x => exact stepOK_refl _
  | n x => exact stepOK_refl _
  | s x => exact stepOK_refl _
  | arr xs => exact stepOK_refl _

theorem processAnswersArr_ok (seckvs : List (String × Json)) (pn pl : Json)
    (ir : Bool) (sn : Option Json) :
    ∀ (xs : List Json) (st : ParseState),
      OStepOK st (processAnswersArr st seckvs pn pl ir sn xs) := by
  intro xs
  induction xs with
  | nil =>
      intro st st' h
      simp only [processAnswersArr, Option.some.injEq] at h
      subst h
      exact stepOK_refl st
  | cons a rest ih =>
      intro st st' h
      simp only [processAnswersArr, Option.bind_eq_bind,
        Option.bind_eq_some] at h
      obtain ⟨st1, h1, h2⟩ := h
      exact stepOK_trans (processAnswerArr_ok st seckvs pn pl ir sn a st1 h1)
        (ih st1 st' h2)

theorem processAnswersObj_ok (seckvs : List (String × Json)) (pn pl : Json)
    (ir : Bool) (sn : Option Json) :
    ∀ (kvs : List (String × Json)) (st : ParseState),
      StepOK st (processAnswersObj st seckvs pn pl ir sn kvs) := by
  intro kvs
  induction kvs with
  | nil => intro st; exact stepOK_refl st
  | cons p rest ih =>
      intro st
      obtain ⟨k, a⟩ := p
      exact stepOK_trans (processAnswerObjItem_ok st seckvs pn pl ir sn k a)
        (ih _)

theorem extract_from_section_ok (st : ParseState) (sec : Json)
    (pn pl : Json) (ir : Bool) (sn : Option Json) :
    OStepOK st (extract_from_section st sec pn pl ir sn) := by
  intro st' h
  cases sec with
  | obj skvs =>
      simp only [extract_from_section, pyGet, Option.bind_eq_bind,
        Option.some_bind] at h
      repeat' split at h
      all_goals
        rw [Option.bind_eq_some] at h
      all_goals
        obtain ⟨st1, h1, h2⟩ := h
      all_goals
        repeat' split at h2
      all_goals
        simp only [Option.pure_def, Option.some.injEq] at h2
      all_goals
        subst h2
      all_goals
        try (simp only [Option.pure_def, Option.some.injEq] at h1; subst h1)
      all_goals
        first
        | exact stepOK_trans
            (processAnswersArr_ok skvs pn pl ir sn _ st _ h1)
            (processAnswersObj_ok skvs pn pl ir sn _ _)
        | exact processAnswersArr_ok skvs pn pl ir sn _ st _ h1
        | exact processAnswersObj_ok skvs pn pl ir sn _ _
        | exact stepOK_refl _
  | null => simp [extract_from_section, pyGet] at h
  | b x => simp [extract_from_section, pyGet] at h
  | n x => simp [extract_from_section, pyGet] at h
  | s x => simp [extract_from_section, pyGet] at h
  | arr xs => simp [extract_from_section, pyGet] at h

theorem processSubSections_ok (pn pl : Json) (sn : Json) :
    ∀ (l : List Json) (st : ParseState),
      OStepOK st (processSubSections st pn pl sn l) := by
  intro l
  induction l with
  | nil =>
      intro st st' h
      simp only [processSubSections, Option.some.injEq] at h
      subst h
      exact stepOK_refl st
  | cons sec rest ih =>
      intro st st' h
      simp only [processSubSections, Option.bind_eq_bind,
        Option.bind_eq_some] at h
      obtain ⟨st1, h1, h2⟩ := h
      exact stepOK_trans (extract_from_section_ok st sec pn pl true
        (some sn) st1 h1) (ih st1 st' h2)

theorem processSubPage_ok (st : ParseState) (pn pl : Json) (sn : Json)
    (sub_page : Json) :
    OStepOK st (processSubPage st pn pl sn sub_page) := by
  intro st' h
  cases sub_page with
  | obj kvs =>
      simp only [processSubPage, pyGet, Option.bind_eq_bind,
        Option.some_bind] at h
      repeat' split at h
      all_goals
        first
        | exact processSubSections_ok pn pl sn _ st st' h
        | (simp only [Option.pure_def, Option.some.injEq] at h
           subst h
           exact stepOK_refl st)
  | null => simp [processSubPage, pyGet] at h
  | b x => simp [processSubPage, pyGet] at h
  | n x => simp [processSubPage, pyGet] at h
  | s x => simp [processSubPage, pyGet] at h
  | arr xs => simp [processSubPage, pyGet] at h

theorem processSubPages_ok (pn pl : Json) (sn : Json) :
    ∀ (l : List Json) (st : ParseState),
      OStepOK st (processSubPages st pn pl sn l) := by
  intro l
  induction l with
  | nil =>
      intro st st' h
      simp only [processSubPages, Option.some.injEq] at h
      subst h
      exact stepOK_refl st
  | cons p rest ih =>
      intro st st' h
      simp only [processSubPages, Option.bind_eq_bind,
        Option.bind_eq_some] at h
      obtain ⟨st1, h1, h2⟩ := h
      exact stepOK_trans (processSubPage_ok st pn pl sn p st1 h1)
        (ih st1 st' h2)

theorem processRepeatRow_ok (st : ParseState) (pn pl : Json) (sn : Json)
    (row : Json) :
    OStepOK st (processRepeatRow st pn pl sn row) := by
  intro st' h
  cases row with
  | obj kvs =>
      simp only [processRepeatRow, pyGet, Option.bind_eq_bind,
        Option.some_bind] at h
      repeat' split at h
      all_goals
        first
        | exact processSubPages_ok pn pl sn _ st st' h
        | (simp only [Option.pure_def, Option.some.injEq] at h
           subst h
           exact stepOK_refl st)
  | null => simp [processRepeatRow, pyGet] at h
  | b x => simp [processRepeatRow, pyGet] at h
  | n x => simp [processRepeatRow, pyGet] at h
  | s x => simp [processRepeatRow, pyGet] at h
  | arr xs => simp [processRepeatRow, pyGet] at h

theorem processSection_ok (st : ParseState) (sec : Json) (pn pl : Json) :
    OStepOK st (processSection st sec pn pl) := by
  intro st' h
  cases sec with
  | obj kvs =>
      simp only [processSection, pyGet, Option.bind_eq_bind,
        Option.some_bind] at h
      repeat' split at h
      all_goals
        first
        | exact processRepeatRow_ok st pn pl _ _ st' h
        | exact extract_from_section_ok st _ pn pl false none st' h
        | (simp only [Option.pure_def, Option.some.injEq] at h
           subst h
           exact stepOK_refl st)
  | null => simp [processSection, pyGet] at h
  | b x => simp [processSection, pyGet] at h
  | n x => simp [processSection, pyGet] at h
  | s x => simp [processSection, pyGet] at h
  | arr xs => simp [processSection, pyGet] at h

theorem processSections_ok (pn pl : Json) :
    ∀ (l : List Json) (st : ParseState),
      OStepOK st (processSections st pn pl l) := by
  intro l
  induction l with
  | nil =>
      intro st st' h
      simp only [processSections, Option.some.injEq] at h
      subst h
      exact stepOK_refl st
  | cons sec rest ih =>
      intro st st' h
      simp only [processSections, Option.bind_eq_bind,
        Option.bind_eq_some] at h
      obtain ⟨st1, h1, h2⟩ := h
      exact stepOK_trans (processSection_ok st sec pn pl st1 h1)
        (ih st1 st' h2)

theorem extract_from_page_ok (st : ParseState) (page : Json) :
    OStepOK st (extract_from_page st page) := by
  intro st' h
  cases page with
  | obj kvs =>
      simp only [extract_from_page, pyGet, Option.bind_eq_bind,
        Option.some_bind] at h
      repeat' split at h
      all_goals
        rw [Option.bind_eq_some] at h
      all_goals
        obtain ⟨st1, h1, h2⟩ := h
      all_goals
        repeat' split at h2
      all_goals
        try (simp only [Option.pure_def, Option.some.injEq] at h2; subst h2)
      all_goals
        try (simp only [Option.pure_def, Option.some.injEq] at h1; subst h1)
      all_goals
        first
        | exact stepOK_trans (processSections_ok _ _ _ st _ h1)
            (processSections_ok _ _ _ _ _ h2)
        | exact stepOK_trans (processSections_ok _ _ _ st _ h1)
            (stepOK_refl _)
        | exact processSections_ok _ _ _ st _ h2
        | exact processSections_ok _ _ _ st _ h1
        | exact stepOK_refl _
  | null => simp [extract_from_page, pyGet] at h
  | b x => simp [extract_from_page, pyGet] at h
  | n x => simp [extract_from_page, pyGet] at h
  | s x => simp [extract_from_page, pyGet] at h
  | arr xs => simp [extract_from_page, pyGet] at h

theorem extractPagesList_ok :
    ∀ (l : List Json) (st : ParseState),
      OStepOK st (extractPagesList st l) := by
  intro l
  induction l with
  | nil =>
      intro st st' h
      simp only [extractPagesList, Option.some.injEq] at h
      subst h
      exact stepOK_refl st
  | cons p rest ih =>
      intro st st' h
      simp only [extractPagesList, Option.bind_eq_bind,
        Option.bind_eq_some] at h
      obtain ⟨st1, h1, h2⟩ := h
      exact stepOK_trans (extract_from_page_ok st p st1 h1) (ih st1 st' h2)

theorem extractSectionsRoot_ok :
    ∀ (l : List Json) (st : ParseState),
      OStepOK st (extractSectionsRoot st l) := by
  intro l
  induction l with
  | nil =>
      intro st st' h
      simp only [extractSectionsRoot, Option.some.injEq] at h
      subst h
      exact stepOK_refl st
  | cons sec rest ih =>
      intro st st' h
      simp only [extractSectionsRoot, Option.bind_eq_bind,
        Option.bind_eq_some] at h
      obtain ⟨st1, h1, h2⟩ := h
      exact stepOK_trans (extract_from_section_ok st sec (.s "Main Page")
        (.s "main") false none st1 h1) (ih st1 st' h2)

theorem ffeEmit_good (key : String) (vkvs : List (String × Json))
    (path : String) : ∀ f ∈ ffeEmit key vkvs path, GoodF f := by
  intro f hf
  simp only [ffeEmit] at hf
  split at hf
  · simp only [List.mem_singleton] at hf
    subst hf
    rfl
  · simp at hf

mutual
theorem ffeItems_good : ∀ (kvs : List (String × Json)) (path : String),
    ∀ f ∈ ffeItems kvs path, GoodF f
  | [], _ => by simp [ffeItems]
  | (key, value) :: rest, path => by
      intro f hf
      simp only [ffeItems, List.mem_append] at hf
      rcases hf with hf | hf
      · exact ffeItem_good key value path f hf
      · exact ffeItems_good rest path f hf

theorem ffeItem_good : ∀ (key : String) (value : Json) (path : String),
    ∀ f ∈ ffeItem key value path, GoodF f
  | key, .obj vkvs, path => by
      intro f hf
      simp only [ffeItem] at hf
      split at hf
      · split at hf
        · exact ffeEmit_good key vkvs path f hf
        · exact ffeItems_good vkvs (extPath path key) f hf
      · simp at hf
  | _, .null, _ => by simp [ffeItem]
  | _, .b _, _ => by simp [ffeItem]
  | _, .n _, _ => by simp [ffeItem]
  | _, .s _, _ => by simp [ffeItem]
  | _, .arr _, _ => by simp [ffeItem]
end

theorem find_form_elements_good (j : Json) (path : String) :
    ∀ f ∈ find_form_elements j path, GoodF f := by
  intro f hf
  cases j with
  | obj kvs =>
      simp only [find_form_elements] at hf
      split at hf
      · exact ffeItems_good kvs path f hf
      · simp at hf
  | null => simp [find_form_elements] at hf
  | b x => simp [find_form_elements] at hf
  | n x => simp [find_form_elements] at hf
  | s x => simp [find_form_elements] at hf
  | arr xs => simp [find_form_elements] at hf

theorem afterPages_ok (d : Json) : OStepOK st0 (afterPages d) := by
  intro st' h
  simp only [afterPages, Option.bind_eq_bind] at h
  cases hd : pyGetD d "dataRecord" (.obj []) with
  | none => rw [hd] at h; simp at h
  | some dr =>
      rw [hd] at h
      simp only [Option.some_bind] at h
      cases hdp : pyGet dr "pages" with
      | none => rw [hdp] at h; simp at h
      | some dp =>
          rw [hdp] at h
          simp only [Option.some_bind] at h
          repeat' split at h
          all_goals
            first
            | exact extractPagesList_ok _ st0 st' h
            | (rw [Option.bind_eq_some] at h
               obtain ⟨secs, h1, h2⟩ := h
               repeat' split at h2
               all_goals
                 first
                 | exact extractSectionsRoot_ok _ st0 st' h2
                 | (simp only [Option.pure_def, Option.some.injEq] at h2
                    subst h2
                    refine ⟨fun f hf => Or.inr ?_, fun f hf => ?_⟩
                    · exact find_form_elements_good d "" f hf
                    · simp at hf)
                 | simp at h2)
            | simp at h

theorem parse_ok (d : Json) :
    OStepOK st0 (parse_form_fields_separated d) := by
  intro st' h
  cases d with
  | obj kvs =>
      simp only [parse_form_fields_separated, pyGet, Option.bind_eq_bind,
        Option.some_bind] at h
      repeat' split at h
      all_goals
        first
        | exact extractPagesList_ok _ st0 st' h
        | exact afterPages_ok _ st' h
  | null => simp [parse_form_fields_separated, pyGet] at h
  | b x => simp [parse_form_fields_separated, pyGet] at h
  | n x => simp [parse_form_fields_separated, pyGet] at h
  | s x => simp [parse_form_fields_separated, pyGet] at h
  | arr xs => simp [parse_form_fields_separated, pyGet] at h

theorem cleanId_length (str : String) : (cleanId str).length ≤ 19 := by
  simp only [cleanId, String.length]
  exact le_trans (List.length_take_le 19 _) (le_refl 19)

theorem cleanId_no_space (str : String) :
    ∀ c ∈ (cleanId str).data, c ≠ ' ' := by
  intro c hc
  simp only [cleanId] at hc
  have hc2 : c ∈ (pyRemoveSpaces str).data := List.take_subset 19 _ hc
  simp only [pyRemoveSpaces, List.mem_filter] at hc2
  have := hc2.2
  simpa using this

/-- Claim C1: every field produced by the extractor, from any document
and under every root shape, has `clean_id` equal to the string form of
its raw id with all spaces removed and truncated to 19 characters;
hence the clean id is at most 19 characters long and contains no
space. -/
theorem claim_C1 (d : Json) (st : ParseState)
    (h : parse_form_fields_separated d = some st) :
    ∀ f ∈ st.main_fields ++ st.repeating_fields,
      f.clean_id = cleanId (pyStr f.id) ∧
      f.clean_id.length ≤ 19 ∧
      (∀ c ∈ f.clean_id.data, c ≠ ' ') := by
  intro f hf
  have hstep := parse_ok d st h
  have hgood : GoodF f := by
    simp only [List.mem_append] at hf
    rcases hf with hf | hf
    · rcases hstep.1 f hf with hin | hg
      · simp [st0] at hin
      · exact hg
    · rcases hstep.2 f hf with hin | hg
      · simp [st0] at hin
      · exact hg
  refine ⟨hgood, ?_, ?_⟩
  · rw [hgood]; exact cleanId_length _
  · rw [hgood]; exact cleanId_no_space _

/-- The document and field of the C1 witness: a raw id with spaces and
more than 19 characters. -/
def c1doc : Json := .obj [("pages", .arr [.obj [("name", .s "P1"),
  ("sections", .arr [.obj [("answers", .arr [.obj
    [("id", .s "My Long Answer Identifier X"), ("name", .s "N")]])]])]])]

def c1fld : Field :=
  { id := .s "My Long Answer Identifier X", clean_id := "MyLongAnswerIdentif",
    name := .s "N", type := .s "text", page := .s "P1", sect := .null,
    question := .s "N", path := "answers.MyLongAnswerIdentif",
    repeating_section := none, display_name := some (.s "N"),
    unique_id := none }

/-- Witness for C1: the concrete document yields exactly this field,
whose clean id satisfies all three properties. -/
theorem claim_C1_witness :
    c1fld.clean_id = cleanId (pyStr c1fld.id) ∧
    c1fld.clean_id.length ≤ 19 ∧
    (∀ c ∈ c1fld.clean_id.data, c ≠ ' ') :=
  claim_C1 c1doc ⟨[c1fld], [], []⟩ (by decide) c1fld (by decide)

theorem sections_branch_eq (kvs : List (String × Json)) :
    (if truthy (objGet kvs "sections") then
      (match objGet kvs "sections" with
       | .arr l => extractSectionsRoot st0 l
       | .obj okvs => extractSectionsRoot st0 (okvs.map (·.2))
       | _ => none)
     else (some ⟨find_form_elements (.obj kvs) "", [], []⟩ : Option ParseState))
    = ((cond4 (.obj kvs)).bind (fun c4 =>
        if c4 then some 3 else some (4 : Nat))).bind
        (fun i => runBranch i (.obj kvs)) := by
  by_cases htr : truthy (objGet kvs "sections") = true
  · simp only [htr, if_true, cond4, pyGet, Option.map_some,
      Option.some_bind, ite_true]
    cases hsec : objGet kvs "sections" <;>
      rw [hsec] at htr <;>
      simp_all [runBranch, pyGet, truthy]
  · simp only [Bool.not_eq_true] at htr
    simp [htr, cond4, pyGet, runBranch]

theorem afterPages_dispatch (kvs : List (String × Json)) :
    afterPages (.obj kvs)
      = ((cond3 (.obj kvs)).bind (fun c3 =>
          if c3 then some 2 else
            (cond4 (.obj kvs)).bind (fun c4 =>
              if c4 then some 3 else some (4 : Nat)))).bind
          (fun i => runBranch i (.obj kvs)) := by
  have hsb := sections_branch_eq kvs
  cases hdr : lookupJ kvs "dataRecord" with
  | none =>
      have hc3 : cond3 (.obj kvs) = some false := by
        simp [cond3, pyGetD, pyGet, hdr, objGet, lookupJ, truthy]
      simp only [afterPages, pyGetD, pyGet, hdr, Option.getD_none,
        Option.bind_eq_bind, Option.some_bind, objGet, lookupJ,
        Option.getD_some, hc3]
      simp only [truthy, List.isEmpty_nil, Bool.not_true,
        Bool.false_eq_true, if_false, ite_false]
      simpa [objGet] using hsb
  | some dr =>
      cases dr with
      | obj drkvs =>
          have hc3 : cond3 (.obj kvs)
              = some (truthy (objGet drkvs "pages")) := by
            simp [cond3, pyGetD, pyGet, hdr]
          simp only [afterPages, pyGetD, pyGet, hdr, Option.getD_some,
            Option.bind_eq_bind, Option.some_bind, hc3]
          by_cases htr : truthy (objGet drkvs "pages") = true
          · simp only [htr, if_true, ite_true]
            cases hdp : objGet drkvs "pages" <;>
              simp [runBranch, pyGetD, pyGet, hdr, hdp]
          · simp only [Bool.not_eq_true] at htr
            simp only [htr, Bool.false_eq_true, if_false, ite_false]
            simpa [objGet] using hsb
      | null =>
          simp [afterPages, cond3, pyGetD, pyGet, hdr]
      | b x =>
          simp [afterPages, cond3, pyGetD, pyGet, hdr]
      | n x =>
          simp [afterPages, cond3, pyGetD, pyGet, hdr]
      | s x =>
          simp [afterPages, cond3, pyGetD, pyGet, hdr]
      | arr xs =>
          simp [afterPages, cond3, pyGetD, pyGet, hdr]

theorem parse_dispatch (d : Json) :
    parse_form_fields_separated d
      = (rootShape d).bind (fun i => runBranch i d) := by
  cases d with
  | obj kvs =>
      cases hpg : objGet kvs "pages" with
      | arr l =>
          cases l with
          | nil =>
              have h1 : cond1 (.obj kvs) = some false := by
                simp [cond1, pyGet, hpg, truthy]
              have h2 : cond2 (.obj kvs) = some false := by
                simp [cond2, pyGet, hpg, isObjJ]
              simp only [parse_form_fields_separated, pyGet, hpg,
                Option.bind_eq_bind, Option.some_bind, truthy,
                List.isEmpty_nil, Bool.not_true, Bool.false_eq_true,
                if_false, ite_false]
              rw [show rootShape (.obj kvs) = ((cond3 (.obj kvs)).bind
                (fun c3 => if c3 then some 2 else
                  (cond4 (.obj kvs)).bind (fun c4 =>
                    if c4 then some 3 else some 4))) from by
                simp [rootShape, h1, h2]]
              exact afterPages_dispatch kvs
          | cons x xs =>
              have h1 : cond1 (.obj kvs) = some true := by
                simp [cond1, pyGet, hpg, truthy, isArrJ]
              simp only [parse_form_fields_separated, pyGet, hpg,
                Option.bind_eq_bind, Option.some_bind, truthy,
                List.isEmpty_cons, Bool.not_false, if_true, ite_true]
              rw [show rootShape (.obj kvs) = some 0 from by
                simp [rootShape, h1]]
              simp [runBranch, pyGet, hpg]
      | obj okvs =>
          cases okvs with
          | nil =>
              have h1 : cond1 (.obj kvs) = some false := by
                simp [cond1, pyGet, hpg, isArrJ]
              have h2 : cond2 (.obj kvs) = some false := by
                simp [cond2, pyGet, hpg, truthy]
              simp only [parse_form_fields_separated, pyGet, hpg,
                Option.bind_eq_bind, Option.some_bind, truthy,
                List.isEmpty_nil, Bool.not_true, Bool.false_eq_true,
                if_false, ite_false]
              rw [show rootShape (.obj kvs) = ((cond3 (.obj kvs)).bind
                (fun c3 => if c3 then some 2 else
                  (cond4 (.obj kvs)).bind (fun c4 =>
                    if c4 then some 3 else some 4))) from by
                simp [rootShape, h1, h2]]
              exact afterPages_dispatch kvs
          | cons x xs =>
              have h1 : cond1 (.obj kvs) = some false := by
                simp [cond1, pyGet, hpg, isArrJ]
              have h2 : cond2 (.obj kvs) = some true := by
                simp [cond2, pyGet, hpg, truthy, isObjJ]
              simp only [parse_form_fields_separated, pyGet, hpg,
                Option.bind_eq_bind, Option.some_bind, truthy,
                List.isEmpty_cons, Bool.not_false, if_true, ite_true]
              rw [show rootShape (.obj kvs) = some 1 from by
                simp [rootShape, h1, h2]]
              simp [runBranch, pyGet, hpg]
      | null =>
          have h1 : cond1 (.obj kvs) = some false := by
            simp [cond1, pyGet, hpg, truthy]
          have h2 : cond2 (.obj kvs) = some false := by
            simp [cond2, pyGet, hpg, truthy]
          simp only [parse_form_fields_separated, pyGet, hpg,
            Option.bind_eq_bind, Option.some_bind]
          rw [show rootShape (.obj kvs) = ((cond3 (.obj kvs)).bind
            (fun c3 => if c3 then some 2 else
              (cond4 (.obj kvs)).bind (fun c4 =>
                if c4 then some 3 else some 4))) from by
            simp [rootShape, h1, h2]]
          exact afterPages_dispatch kvs
      | b x =>
          have h1 : cond1 (.obj kvs) = some false := by
            simp [cond1, pyGet, hpg, isArrJ]
          have h2 : cond2 (.obj kvs) = some false := by
            simp [cond2, pyGet, hpg, isObjJ]
          simp only [parse_form_fields_separated, pyGet, hpg,
            Option.bind_eq_bind, Option.some_bind]
          rw [show rootShape (.obj kvs) = ((cond3 (.obj kvs)).bind
            (fun c3 => if c3 then some 2 else
              (cond4 (.obj kvs)).bind (fun c4 =>
                if c4 then some 3 else some 4))) from by
            simp [rootShape, h1, h2]]
          exact afterPages_dispatch kvs
      | n x =>
          have h1 : cond1 (.obj kvs) = some false := by
            simp [cond1, pyGet, hpg, isArrJ]
          have h2 : cond2 (.obj kvs) = some false := by
            simp [cond2, pyGet, hpg, isObjJ]
          simp only [parse_form_fields_separated, pyGet, hpg,
            Option.bind_eq_bind, Option.some_bind]
          rw [show rootShape (.obj kvs) = ((cond3 (.obj kvs)).bind
            (fun c3 => if c3 then some 2 else
              (cond4 (.obj kvs)).bind (fun c4 =>
                if c4 then some 3 else some 4))) from by
            simp [rootShape, h1, h2]]
          exact afterPages_dispatch kvs
      | s x =>
          have h1 : cond1 (.obj kvs) = some false := by
            simp [cond1, pyGet, hpg, isArrJ]
          have h2 : cond2 (.obj kvs) = some false := by
            simp [cond2, pyGet, hpg, isObjJ]
          simp only [parse_form_fields_separated, pyGet, hpg,
            Option.bind_eq_bind, Option.some_bind]
          rw [show rootShape (.obj kvs) = ((cond3 (.obj kvs)).bind
            (fun c3 => if c3 then some 2 else
              (cond4 (.obj kvs)).bind (fun c4 =>
                if c4 then some 3 else some 4))) from by
            simp [rootShape, h1, h2]]
          exact afterPages_dispatch kvs
  | null => simp [parse_form_fields_separated, rootShape, cond1, pyGet]
  | b x => simp [parse_form_fields_separated, rootShape, cond1, pyGet]
  | n x => simp [parse_form_fields_separated, rootShape, cond1, pyGet]
  | s x => simp [parse_form_fields_separated, rootShape, cond1, pyGet]
  | arr xs => simp [parse_form_fields_separated, rootShape, cond1, pyGet]

theorem rootShape_cases (d : Json) :
    (rootShape d = some 0 ↔ cond1 d = some true) ∧
    (rootShape d = some 1 ↔ cond1 d = some false ∧ cond2 d = some true) ∧
    (rootShape d = some 2 ↔ cond1 d = some false ∧ cond2 d = some false ∧
      cond3 d = some true) ∧
    (rootShape d = some 3 ↔ cond1 d = some false ∧ cond2 d = some false ∧
      cond3 d = some false ∧ cond4 d = some true) ∧
    (rootShape d = some 4 ↔ cond1 d = some false ∧ cond2 d = some false ∧
      cond3 d = some false ∧ cond4 d = some false) := by
  cases h1 : cond1 d with
  | none => simp [rootShape, h1]
  | some c1 =>
      cases c1 with
      | true => simp [rootShape, h1]
      | false =>
          cases h2 : cond2 d with
          | none => simp [rootShape, h1, h2]
          | some c2 =>
              cases c2 with
              | true => simp [rootShape, h1, h2]
              | false =>
                  cases h3 : cond3 d with
                  | none => simp [rootShape, h1, h2, h3]
                  | some c3 =>
                      cases c3 with
                      | true => simp [rootShape, h1, h2, h3]
                      | false =>
                          cases h4 : cond4 d with
                          | none => simp [rootShape, h1, h2, h3, h4]
                          | some c4 =>
                              cases c4 <;> simp [rootShape, h1, h2, h3, h4]

/-- Counterexample to C2: on the mapping document whose `dataRecord`
value is `null`, root-shape resolution raises an `AttributeError`
while evaluating condition 3, so no branch runs and extraction returns
no result at all. -/
theorem claim_C2_counterexample :
    parse_form_fields_separated (.obj [("dataRecord", .null)]) = none ∧
    rootShape (.obj [("dataRecord", .null)]) = none := by
  constructor
  · decide
  · decide

/-- Claim C2 as amended: the five root-shape branches are selected in
the stated fixed priority order, first match wins and exactly the
selected branch runs — for every document on which evaluating the
conditions does not raise.  When conditions 1 and 2 fail and the
document carries a non-mapping `dataRecord` value (or the document
itself is not a mapping), resolution raises instead of running any
branch, and extraction returns nothing. -/
theorem claim_C2 (d : Json) :
    parse_form_fields_separated d
      = (rootShape d).bind (fun i => runBranch i d) ∧
    (rootShape d = some 0 ↔ cond1 d = some true) ∧
    (rootShape d = some 1 ↔ cond1 d = some false ∧ cond2 d = some true) ∧
    (rootShape d = some 2 ↔ cond1 d = some false ∧ cond2 d = some false ∧
      cond3 d = some true) ∧
    (rootShape d = some 3 ↔ cond1 d = some false ∧ cond2 d = some false ∧
      cond3 d = some false ∧ cond4 d = some true) ∧
    (rootShape d = some 4 ↔ cond1 d = some false ∧ cond2 d = some false ∧
      cond3 d = some false ∧ cond4 d = some false) ∧
    (rootShape d = none → parse_form_fields_separated d = none) := by
  obtain ⟨ha, hb, hc, hd2, he⟩ := rootShape_cases d
  refine ⟨parse_dispatch d, ha, hb, hc, hd2, he, fun hn => ?_⟩
  rw [parse_dispatch d, hn]
  rfl

/-- Witness for C2 using its implication at a concrete raising input:
on the counterexample document resolution yields no branch and parsing
returns nothing. -/
theorem claim_C2_witness :
    parse_form_fields_separated (.obj [("dataRecord", .b true)]) = none :=
  (claim_C2 (.obj [("dataRecord", .b true)])).2.2.2.2.2.2 (by decide)

/-- Resolution of the answer id exactly as claim C8 words it for
mapping entries: first-of label, id, uniqueId, then the mapping key. -/
def answerIdSpecC8 (akvs : List (String × Json)) (key : String) : Json :=
  pyOr (objGet akvs "label") (pyOr (objGet akvs "id")
    (pyOr (objGet akvs "uniqueId") (.s key)))

/-- Counterexample to C8: for an answers mapping entry carrying only a
`uniqueId`, the claimed resolution yields that `uniqueId`, but the
extractor emits the mapping key instead (the mapping branch never
consults `uniqueId`), and it does not skip entries with empty
identifiers either. -/
theorem claim_C8_counterexample :
    (extract_from_section st0
        (.obj [("answers", .obj [("k", .obj [("uniqueId", .s "U")])])])
        (.s "P") (.s "P") false none).map
        (fun st => st.main_fields.map Field.id)
      = some [.s "k"] ∧
    answerIdSpecC8 [("uniqueId", .s "U")] "k" = .s "U" ∧
    (extract_from_section st0
        (.obj [("answers", .obj [("", .obj [("x", .s "y")])])])
        (.s "P") (.s "P") false none).map
        (fun st => st.main_fields.map Field.id)
      = some [.s ""] := by
  refine ⟨by decide, by decide, by decide⟩

/-- Claim C8 as amended: in the answers-as-array branch, answerId is
first-of (label, id, uniqueId), answerName first-of (name, text,
question, answerId), answerType first-of (type, questionType, "text"),
and an entry with falsy answerId or answerName is skipped; in the
answers-as-mapping branch, a non-mapping entry value is skipped, and a
mapping entry is always emitted with answerId first-of (label, id,
mapping key) — uniqueId is not consulted — and answerName first-of
(name, text, question, mapping key), falling back to the key rather
than to answerId. -/
theorem claim_C8 (st : ParseState) (skvs akvs : List (String × Json))
    (pn pl : Json) (sn : Option Json) (key : String) :
    ((truthy (pyOr (objGet akvs "label") (pyOr (objGet akvs "id")
        (objGet akvs "uniqueId"))) &&
      truthy (pyOr (objGet akvs "name") (pyOr (objGet akvs "text")
        (pyOr (objGet akvs "question") (pyOr (objGet akvs "label")
          (pyOr (objGet akvs "id") (objGet akvs "uniqueId"))))))) = true →
      ∃ fd : Field,
        processAnswerArr st skvs pn pl false sn (.obj akvs)
          = some { st with main_fields := st.main_fields ++ [fd] } ∧
        fd.id = pyOr (objGet akvs "label") (pyOr (objGet akvs "id")
          (objGet akvs "uniqueId")) ∧
        fd.name = pyOr (objGet akvs "name") (pyOr (objGet akvs "text")
          (pyOr (objGet akvs "question") fd.id)) ∧
        fd.type = pyOr (objGet akvs "type")
          (pyOr (objGet akvs "questionType") (.s "text"))) ∧
    ((truthy (pyOr (objGet akvs "label") (pyOr (objGet akvs "id")
        (objGet akvs "uniqueId"))) &&
      truthy (pyOr (objGet akvs "name") (pyOr (objGet akvs "text")
        (pyOr (objGet akvs "question") (pyOr (objGet akvs "label")
          (pyOr (objGet akvs "id") (objGet akvs "uniqueId"))))))) = false →
      processAnswerArr st skvs pn pl false sn (.obj akvs) = some st) ∧
    (∃ fd : Field,
      processAnswerObjItem st skvs pn pl false sn key (.obj akvs)
        = { st with main_fields := st.main_fields ++ [fd] } ∧
      fd.id = pyOr (objGet akvs "label") (pyOr (objGet akvs "id") (.s key)) ∧
      fd.name = pyOr (objGet akvs "name") (pyOr (objGet akvs "text")
        (pyOr (objGet akvs "question") (.s key))) ∧
      fd.type = pyOr (objGet akvs "type")
        (pyOr (objGet akvs "questionType") (.s "text"))) ∧
    (∀ v : Json, isObjJ v = false →
      processAnswerObjItem st skvs pn pl false sn key v = st) := by
  refine ⟨fun hg => ?_, fun hg => ?_, ?_, fun v hv => ?_⟩
  · simp only [processAnswerArr, pyGet, Option.bind_eq_bind,
      Option.some_bind, hg, if_true, ite_true]
    exact ⟨_, rfl, rfl, rfl, rfl⟩
  · simp only [processAnswerArr, pyGet, Option.bind_eq_bind,
      Option.some_bind]
    rw [if_neg (by simp [hg])]
    rfl
  · simp only [processAnswerObjItem]
    exact ⟨_, rfl, rfl, rfl, rfl⟩
  · cases v <;> simp_all [processAnswerObjItem, isObjJ]

/-- Witness for C8: an array entry with id and name is emitted with
that id; an array entry with an empty id is skipped. -/
theorem claim_C8_witness :
    (∃ fd : Field,
      processAnswerArr st0 [] (.s "P") (.s "P") false none
          (.obj [("id", .s "A"), ("name", .s "B")])
        = some { st0 with main_fields := st0.main_fields ++ [fd] } ∧
      fd.id = pyOr (objGet [("id", .s "A"), ("name", .s "B")] "label")
        (pyOr (objGet [("id", .s "A"), ("name", .s "B")] "id")
          (objGet [("id", .s "A"), ("name", .s "B")] "uniqueId")) ∧
      fd.name = pyOr (objGet [("id", .s "A"), ("name", .s "B")] "name")
        (pyOr (objGet [("id", .s "A"), ("name", .s "B")] "text")
          (pyOr (objGet [("id", .s "A"), ("name", .s "B")] "question") fd.id)) ∧
      fd.type = pyOr (objGet [("id", .s "A"), ("name", .s "B")] "type")
        (pyOr (objGet [("id", .s "A"), ("name", .s "B")] "questionType")
          (.s "text"))) ∧
    processAnswerArr st0 [] (.s "P") (.s "P") false none
        (.obj [("id", .s "")])
      = some st0 :=
  ⟨(claim_C8 st0 [] [("id", .s "A"), ("name", .s "B")] (.s "P") (.s "P")
      none "k").1 (by decide),
   (claim_C8 st0 [] [("id", .s "")] (.s "P") (.s "P") none "k").2.1
      (by decide)⟩

/-- Counterexample to C9: a mapping node carrying a `label` key that
sits inside an array is never found by the fallback search — the
walker only descends through mapping values — so this document yields
zero fields although the claim requires the node to be emitted. -/
theorem claim_C9_counterexample :
    parse_form_fields_separated (.obj [("a", .arr [.obj [("label", .s "x")]])])
      = some ⟨[], [], []⟩ ∧
    objGet [("label", Json.s "x")] "label" = .s "x" := by
  refine ⟨by decide, by decide⟩

theorem ffeEmit_shape (key : String) (vkvs : List (String × Json))
    (path : String) : ∀ f ∈ ffeEmit key vkvs path,
      f.sect = .s "Unknown" ∧ f.repeating_section = none ∧
      f.page = .s (if path = "" then "Unknown" else path) := by
  intro f hf
  simp only [ffeEmit] at hf
  split at hf
  · simp only [List.mem_singleton] at hf
    subst hf
    exact ⟨rfl, rfl, rfl⟩
  · simp at hf

mutual
theorem ffeItems_shape : ∀ (kvs : List (String × Json)) (path : String),
    ∀ f ∈ ffeItems kvs path,
      f.sect = .s "Unknown" ∧ f.repeating_section = none
  | [], _ => by simp [ffeItems]
  | (key, value) :: rest, path => by
      intro f hf
      simp only [ffeItems, List.mem_append] at hf
      rcases hf with hf | hf
      · exact ffeItem_shape key value path f hf
      · exact ffeItems_shape rest path f hf

theorem ffeItem_shape : ∀ (key : String) (value : Json) (path : String),
    ∀ f ∈ ffeItem key value path,
      f.sect = .s "Unknown" ∧ f.repeating_section = none
  | key, .obj vkvs, path => by
      intro f hf
      simp only [ffeItem] at hf
      split at hf
      · split at hf
        · have := ffeEmit_shape key vkvs path f hf
          exact ⟨this.1, this.2.1⟩
        · exact ffeItems_shape vkvs (extPath path key) f hf
      · simp at hf
  | _, .null, _ => by simp [ffeItem]
  | _, .b _, _ => by simp [ffeItem]
  | _, .n _, _ => by simp [ffeItem]
  | _, .s _, _ => by simp [ffeItem]
  | _, .arr _, _ => by simp [ffeItem]
end

/-- Claim C9 as amended: when root shape 5 is selected the whole
result is the fallback search with no repeating fields and no
registry; the walker examines only mapping values of the current
mapping — a truthy mapping value with a truthy label, name or question
is emitted, any other truthy mapping value is recursed into with the
path extended by the current key, and array or scalar values
contribute nothing (arrays are never descended into); every emitted
field carries section "Unknown", no repeating section, and the dotted
path of its parent mapping as page ("Unknown" at the root). -/
theorem claim_C9 :
    (∀ d : Json, rootShape d = some 4 →
      parse_form_fields_separated d
        = some ⟨find_form_elements d "", [], []⟩) ∧
    (∀ (key : String) (value : Json) (rest : List (String × Json))
      (path : String),
      find_form_elements (.obj ((key, value) :: rest)) path
        = (match value with
           | .obj vkvs =>
               if truthy (.obj vkvs) then
                 if truthy (pyOr (objGet vkvs "label")
                     (pyOr (objGet vkvs "name") (objGet vkvs "question"))) then
                   ffeEmit key vkvs path
                 else
                   find_form_elements (.obj vkvs) (extPath path key)
               else []
           | _ => []) ++ find_form_elements (.obj rest) path) ∧
    (∀ (j : Json) (path : String), ∀ f ∈ find_form_elements j path,
      f.sect = .s "Unknown" ∧ f.repeating_section = none) ∧
    (∀ (key : String) (vkvs : List (String × Json)) (path : String),
      ∀ f ∈ ffeEmit key vkvs path,
        f.page = .s (if path = "" then "Unknown" else path)) := by
  refine ⟨fun d hroot => ?_, fun key value rest path => ?_, ?_, ?_⟩
  · rw [parse_dispatch d, hroot]
    rfl
  · have hne : truthy (Json.obj ((key, value) :: rest)) = true := by
      simp [truthy]
    rw [find_form_elements_eq_ffeItems _ path hne]
    show ffeItems ((key, value) :: rest) path = _
    simp only [ffeItems]
    congr 1
    · cases value with
      | obj vkvs =>
          by_cases htr : truthy (Json.obj vkvs) = true
          · simp only [ffeItem, htr, if_true, ite_true,
              find_form_elements_eq_ffeItems vkvs (extPath path key) htr]
          · simp only [Bool.not_eq_true] at htr
            simp [ffeItem, htr]
      | null => rfl
      | b x => rfl
      | n x => rfl
      | s x => rfl
      | arr xs => rfl
    · cases rest with
      | nil => simp [ffeItems, find_form_elements]
      | cons q qs =>
          rw [find_form_elements_eq_ffeItems _ path (by simp [truthy])]
  · intro j path f hf
    cases j with
    | obj kvs =>
        simp only [find_form_elements] at hf
        split at hf
        · exact ffeItems_shape kvs path f hf
        · simp at hf
    | null => simp [find_form_elements] at hf
    | b x => simp [find_form_elements] at hf
    | n x => simp [find_form_elements] at hf
    | s x => simp [find_form_elements] at hf
    | arr xs => simp [find_form_elements] at hf
  · intro key vkvs path f hf
    exact (ffeEmit_shape key vkvs path f hf).2.2

/-- Witness for C9: a concrete shape-5 document, and a concrete
emitted field with section Unknown and the parent path as page. -/
theorem claim_C9_witness :
    parse_form_fields_separated (.obj [("a", .obj [("b", .obj
        [("label", .s "x"), ("id", .s "i")])])])
      = some ⟨find_form_elements (.obj [("a", .obj [("b", .obj
          [("label", .s "x"), ("id", .s "i")])])]) "", [], []⟩ :=
  claim_C9.1 _ (by decide)
